import Mathlib

/-!
Shallow embedding of the sailing-regattas route calculator
(`app/services/routing/heuristics.py`, `app/services/routing/iterative_routing.py`,
`app/services/weather/validator.py`, `app/services/mesh/zones.py`,
`app/services/routing/segement_optimalizer.py`, `app/schemas/time_aware_weather.py`).

Python float arithmetic is modelled by exact real (or rational) arithmetic.
-/

namespace Sailing

/-! ## Geometry primitives (`SailingHeuristics._calculate_bearing/_distance/_twa`) -/

/-- Python's float `%` for a positive modulus: `x % m = x - m * floor (x / m)`,
the representative in `[0, m)`. -/
noncomputable def pmod (x m : ℝ) : ℝ := x - m * ⌊x / m⌋

/-- `math.atan2 y x`: the angle of the point `(x, y)` in `(-π, π]`. -/
noncomputable def atan2 (y x : ℝ) : ℝ :=
  if 0 < x then Real.arctan (y / x)
  else if x < 0 ∧ 0 ≤ y then Real.arctan (y / x) + Real.pi
  else if x < 0 ∧ y < 0 then Real.arctan (y / x) - Real.pi
  else if x = 0 ∧ 0 < y then Real.pi / 2
  else if x = 0 ∧ y < 0 then -(Real.pi / 2)
  else 0

/-- `math.degrees`. -/
noncomputable def degrees (r : ℝ) : ℝ := r * 180 / Real.pi

/-- `math.radians`. -/
noncomputable def radians (d : ℝ) : ℝ := d * Real.pi / 180

/-- `SailingHeuristics._calculate_bearing`: bearing in degrees, normalized by
`(bearing + 360) % 360`.  Note the argument order `atan2(dx, dy)`: 0° is north
(+y), clockwise positive. -/
noncomputable def calculate_bearing (p q : ℝ × ℝ) : ℝ :=
  pmod (degrees (atan2 (q.1 - p.1) (q.2 - p.2)) + 360) 360

/-- `SailingHeuristics._calculate_distance`: Euclidean distance in meters. -/
noncomputable def calculate_distance (p q : ℝ × ℝ) : ℝ :=
  Real.sqrt ((q.1 - p.1) * (q.1 - p.1) + (q.2 - p.2) * (q.2 - p.2))

/-- `SailingHeuristics._calculate_twa`: true wind angle `heading - wind_direction`
brought into `[-180, 180]`.  The source normalizes with two `while` loops
(`while twa > 180: twa -= 360`, `while twa < -180: twa += 360`); for headings and
wind directions in `[0, 360)` the difference lies in `(-360, 360)`, so a single
conditional step is the exact same function. -/
noncomputable def calculate_twa (heading wind_direction : ℝ) : ℝ :=
  let twa := heading - wind_direction
  if 180 < twa then twa - 360 else if twa < -180 then twa + 360 else twa

/-! ## Data model: sailing conditions, raw marine-API weather, yacht -/

/-- `app/schemas/SailingConditions.py`: speeds in knots, directions in degrees,
wave height in meters. -/
structure SailingConditions where
  wind_speed : ℝ
  wind_direction : ℝ
  wave_height : ℝ
  wave_direction : ℝ
  wave_period : ℝ
  current_velocity : ℝ
  current_direction : ℝ

/-- A raw marine-API weather record with all seven required fields present and
numeric (the shape consumed by `SailingConditions.from_weather_data`). -/
structure WeatherRaw where
  wind_speed_10m : ℝ
  wind_direction_10m : ℝ
  wave_height : ℝ
  wave_direction : ℝ
  wave_period : ℝ
  current_speed : ℝ
  current_direction : ℝ

/-- `SailingConditions.from_weather_data`: converts the speeds from m/s to knots
(`* 1.94384`) and normalizes the three directions with `%= 360`. -/
noncomputable def SailingConditions.from_weather_data (d : WeatherRaw) : SailingConditions :=
  { wind_speed := d.wind_speed_10m * 1.94384
    wind_direction := pmod d.wind_direction_10m 360
    wave_height := d.wave_height
    wave_direction := pmod d.wave_direction 360
    wave_period := d.wave_period
    current_velocity := d.current_speed * 1.94384
    current_direction := pmod d.current_direction 360 }

/-- Polar table (`yacht.polar_data` with keys `twa_angles`, `wind_speeds`,
`boat_speeds`). -/
structure Polar where
  twa_angles : List ℝ
  wind_speeds : List ℝ
  boat_speeds : List (List ℝ)

/-- The yacht fields read by the heuristics engine (`app/models/models.py`).
`Option` models SQL NULL / Python `None`. -/
structure Yacht where
  length : ℝ
  beam : ℝ
  draft : Option ℝ
  max_speed : Option ℝ
  max_wind_speed : Option ℝ
  amount_of_crew : Option ℤ
  tack_time : Option ℝ
  jibe_time : Option ℝ
  polar_data : Option Polar

/-- Python truthiness of an optional float (`None` and `0.0` are falsy). -/
noncomputable def optTruthy (o : Option ℝ) : Bool :=
  match o with
  | some v => if v = 0 then false else true
  | none => false

/-! ## `SailingHeuristics` -/

/-- The heuristics engine state.  The source constructor receives
`weather_mapping : weather_idx → [nav_idx]` and inverts it into
`nav_to_weather`; the embedding carries the inverted map directly, which is the
only form the methods read. -/
structure SailingHeuristics where
  yacht : Yacht
  nav_to_weather : ℕ → Option ℕ
  weather_data : ℕ → Option WeatherRaw

namespace SailingHeuristics

/-- `self.TACKING_PENALTY = (yacht.tack_time * 60.0) if yacht.tack_time else 120.0`
(`tack_time` is in minutes, so this is the tack time in seconds; `None` and `0`
both fall back to 120 s by Python truthiness). -/
noncomputable def TACKING_PENALTY (H : SailingHeuristics) : ℝ :=
  match H.yacht.tack_time with
  | some t => if t = 0 then 120 else t * 60
  | none => 120

/-- `self.GYBING_PENALTY = (yacht.jibe_time * 60.0) if yacht.jibe_time else 90.0`. -/
noncomputable def GYBING_PENALTY (H : SailingHeuristics) : ℝ :=
  match H.yacht.jibe_time with
  | some t => if t = 0 then 90 else t * 60
  | none => 90

/-- `self.DEAD_ANGLE = 30.0`. -/
def DEAD_ANGLE (_H : SailingHeuristics) : ℝ := 30

/-- `self.yacht_length_m = yacht.length * 0.3048` (feet to meters). -/
noncomputable def yacht_length_m (H : SailingHeuristics) : ℝ := H.yacht.length * 0.3048

/-- `SailingHeuristics._get_conditions_at_vertex`: look the vertex up in
`nav_to_weather`, then the weather point in `weather_data`; otherwise the
hard-coded default conditions. -/
noncomputable def conditions_at_vertex (H : SailingHeuristics) (vertex_idx : ℕ) :
    SailingConditions :=
  match H.nav_to_weather vertex_idx with
  | some weather_idx =>
    match H.weather_data weather_idx with
    | some d => SailingConditions.from_weather_data d
    | none =>
      { wind_speed := 10, wind_direction := 0, wave_height := 1, wave_direction := 0
        wave_period := 5, current_velocity := 0.5, current_direction := 0 }
  | none =>
    { wind_speed := 10, wind_direction := 0, wave_height := 1, wave_direction := 0
      wave_period := 5, current_velocity := 0.5, current_direction := 0 }

/-- `SailingHeuristics._simple_polar_model`: piecewise fraction-of-wind model,
light/strong-wind scaling, cap at `max_speed` (Python truthiness), floor 0.5 m/s. -/
noncomputable def simple_polar_model (H : SailingHeuristics) (wind_speed_ms twa : ℝ) : ℝ :=
  let twa := |twa|
  let speed_factor : ℝ :=
    if twa < 25 then 0
    else if twa < 45 then 0.3
    else if twa < 60 then 0.5
    else if twa < 90 then 0.65
    else if twa < 120 then 0.7
    else if twa < 150 then 0.65
    else if twa < 170 then 0.55
    else 0.5
  let wind_knots := wind_speed_ms / 0.514444
  let speed_factor :=
    if wind_knots < 5 then speed_factor * 0.3
    else if 25 < wind_knots then speed_factor * 0.8
    else speed_factor
  let boat_speed := wind_speed_ms * speed_factor
  let boat_speed :=
    match H.yacht.max_speed with
    | some m => if m = 0 then boat_speed else min boat_speed (m * 0.514444)
    | none => boat_speed
  max boat_speed 0.5

/-- The scan loop of `SailingHeuristics._find_interpolation_indices`
(`for i in range(len-1): if array[i] <= value <= array[i+1]: ...`), with the
trailing `return (len-1, len-1, 0.0)`. -/
noncomputable def interpScan (v : ℝ) (len : ℕ) : List ℝ → ℕ → ℕ × ℕ × ℝ
  | x :: y :: rest, i =>
    if x ≤ v ∧ v ≤ y then (i, i + 1, if 0 < y - x then (v - x) / (y - x) else 0)
    else interpScan v len (y :: rest) (i + 1)
  | _, _ => (len - 1, len - 1, 0)

/-- `SailingHeuristics._find_interpolation_indices`. -/
noncomputable def find_interpolation_indices (v : ℝ) (a : List ℝ) : ℕ × ℕ × ℝ :=
  match a with
  | [] => (0, 0, 0)
  | x :: rest =>
    if v ≤ x then (0, 0, 0)
    else if (x :: rest).getLast (by simp) ≤ v then (a.length - 1, a.length - 1, 0)
    else interpScan v a.length (x :: rest) 0

/-- `SailingHeuristics._get_boat_speed`: bilinear interpolation in the polar
table, falling back to the simple model when the table is absent/empty or an
index is out of range (the `try/except IndexError` in the source). -/
noncomputable def get_boat_speed (H : SailingHeuristics) (wind_speed_ms twa : ℝ) : ℝ :=
  match H.yacht.polar_data with
  | none => H.simple_polar_model wind_speed_ms twa
  | some polar =>
    let twa := |twa|
    if polar.twa_angles = [] ∨ polar.wind_speeds = [] ∨ polar.boat_speeds = [] then
      H.simple_polar_model wind_speed_ms twa
    else
      let wind_speed_knots := wind_speed_ms / 0.514444
      let ti := find_interpolation_indices twa polar.twa_angles
      let wi := find_interpolation_indices wind_speed_knots polar.wind_speeds
      match (polar.boat_speeds.get? ti.1).bind (·.get? wi.1),
            (polar.boat_speeds.get? ti.1).bind (·.get? wi.2.1),
            (polar.boat_speeds.get? ti.2.1).bind (·.get? wi.1),
            (polar.boat_speeds.get? ti.2.1).bind (·.get? wi.2.1) with
      | some ll, some lh, some hl, some hh =>
        let speed_l := ll + (lh - ll) * wi.2.2
        let speed_h := hl + (hh - hl) * wi.2.2
        (speed_l + (speed_h - speed_l) * ti.2.2) * 0.514444
      | _, _, _, _ => H.simple_polar_model wind_speed_ms twa

/-- `SailingHeuristics._apply_current_effect`: vector addition of boat and
current velocities; skipped below 0.1 m/s of current. -/
noncomputable def apply_current_effect (_H : SailingHeuristics)
    (boat_speed heading current_velocity current_direction : ℝ) : ℝ :=
  if current_velocity < 0.1 then boat_speed
  else
    let total_vx := boat_speed * Real.sin (radians heading) +
      current_velocity * Real.sin (radians current_direction)
    let total_vy := boat_speed * Real.cos (radians heading) +
      current_velocity * Real.cos (radians current_direction)
    Real.sqrt (total_vx ^ 2 + total_vy ^ 2)

/-- `SailingHeuristics._calculate_wave_penalty`. -/
noncomputable def calculate_wave_penalty (H : SailingHeuristics)
    (wave_height wave_direction heading : ℝ) : ℝ :=
  if wave_height < 0.5 then 0
  else
    let size_factor := 1 - min (H.yacht_length_m / 50) 0.5
    let wave_angle := |heading - wave_direction|
    let wave_angle := if 180 < wave_angle then 360 - wave_angle else wave_angle
    let angle_factor : ℝ :=
      if wave_angle < 30 then 1
      else if wave_angle < 60 then 0.8
      else if wave_angle < 120 then 1.2
      else if wave_angle < 150 then 0.6
      else 0.3
    let height_factor := min (wave_height / H.yacht_length_m * 3) 1
    min (height_factor * angle_factor * size_factor * 0.4) 0.5

/-- The heading-change computation at the top of
`SailingHeuristics._calculate_maneuver_penalty`: `|to - from|`, folded into
`[0, 180]`. -/
noncomputable def heading_change (from_heading to_heading : ℝ) : ℝ :=
  let d := |to_heading - from_heading|
  if 180 < d then 360 - d else d

/-- `SailingHeuristics._calculate_maneuver_penalty`: tack penalty when both TWAs
are upwind (`|twa| < 90`) and change sign, gybe penalty when both are downwind
(`|twa| > 120`) and change sign, plus 10 s for a heading change above 60°. -/
noncomputable def calculate_maneuver_penalty (H : SailingHeuristics)
    (from_heading to_heading from_twa to_twa : ℝ) : ℝ :=
  let heading_change := heading_change from_heading to_heading
  let penalty : ℝ :=
    if |from_twa| < 90 ∧ |to_twa| < 90 then
      (if from_twa * to_twa < 0 then H.TACKING_PENALTY else 0)
    else if 120 < |from_twa| ∧ 120 < |to_twa| then
      (if from_twa * to_twa < 0 then H.GYBING_PENALTY else 0)
    else 0
  penalty + (if 60 < heading_change then 10 else 0)

/-- `SailingHeuristics._calculate_comfort_penalty`. -/
noncomputable def calculate_comfort_penalty (H : SailingHeuristics)
    (c : SailingConditions) : ℝ :=
  let relative_wave := c.wave_height / H.yacht_length_m
  let penalty : ℝ := if 0.1 < relative_wave then min ((relative_wave - 0.1) * 2) 0.3 else 0
  let penalty :=
    if optTruthy H.yacht.max_wind_speed then
      let wind_knots := (H.yacht.max_wind_speed.getD 0) / 0.514444
      if wind_knots < c.wind_speed then penalty + 0.5
      else if wind_knots * 0.8 < c.wind_speed then
        penalty + min ((c.wind_speed - wind_knots * 0.8) / (wind_knots * 0.2) * 0.3) 0.3
      else penalty
    else
      if 30 < c.wind_speed then penalty + min ((c.wind_speed - 30) / 20) 0.3 else penalty
  let penalty :=
    if c.wind_speed < 5 then
      penalty + min ((5 - c.wind_speed) / 5 * min (H.yacht_length_m / 30) 1.5 * 0.3) 0.2
    else penalty
  let penalty :=
    match H.yacht.amount_of_crew with
    | some n => if n = 0 then penalty else penalty * (1 + 1 / ((max n 1 : ℤ) : ℝ) * 0.2)
    | none => penalty
  min penalty 0.5

/-- `SailingHeuristics.calculate_edge_cost`: time cost in seconds of sailing one
mesh edge, `none` modelling the `float('inf')` returns (dead-angle and
zero-boat-speed). -/
noncomputable def calculate_edge_cost (H : SailingHeuristics)
    (from_vertex to_vertex : ℝ × ℝ) (from_idx to_idx : ℕ)
    (previous_heading : Option ℝ) : Option ℝ :=
  let from_conditions := H.conditions_at_vertex from_idx
  let to_conditions := H.conditions_at_vertex to_idx
  let bearing := calculate_bearing from_vertex to_vertex
  let distance := calculate_distance from_vertex to_vertex
  let from_twa := calculate_twa (previous_heading.getD bearing) from_conditions.wind_direction
  let to_twa := calculate_twa bearing to_conditions.wind_direction
  if |to_twa| < H.DEAD_ANGLE then none
  else
    let avg_wind_speed_knots := (from_conditions.wind_speed + to_conditions.wind_speed) / 2
    let avg_wind_speed_ms := avg_wind_speed_knots * 0.514444
    let avg_wave_height := (from_conditions.wave_height + to_conditions.wave_height) / 2
    let boat_speed := H.get_boat_speed avg_wind_speed_ms |to_twa|
    let current_velocity_ms := to_conditions.current_velocity * 0.514444
    let boat_speed := H.apply_current_effect boat_speed bearing current_velocity_ms
      to_conditions.current_direction
    let wave_penalty := H.calculate_wave_penalty avg_wave_height
      to_conditions.wave_direction bearing
    let boat_speed := boat_speed * (1 - wave_penalty)
    let boat_speed := max boat_speed 0.5
    let time_cost := distance / boat_speed
    let time_cost := time_cost +
      (match previous_heading with
       | some ph => H.calculate_maneuver_penalty ph bearing from_twa to_twa
       | none => 0)
    let time_cost := time_cost * (1 + H.calculate_comfort_penalty to_conditions)
    if boat_speed ≤ 0.01 then none
    else some (if 10000 < distance then time_cost * (1 + (distance - 10000) / 50000)
               else time_cost)

/-- The optimistic speed used by `SailingHeuristics.calculate_heuristic_cost`:
max polar speed in m/s (5 m/s default, Python truthiness on `max_speed`),
scaled 0.5× below 5 kt of wind and 0.8× above 25 kt. -/
noncomputable def optimistic_speed (H : SailingHeuristics) (c : SailingConditions) : ℝ :=
  let opt : ℝ :=
    match H.yacht.max_speed with
    | some m => if m = 0 then 5 else m * 0.514444
    | none => 5
  if c.wind_speed < 5 then opt * 0.5
  else if 25 < c.wind_speed then opt * 0.8
  else opt

/-- `SailingHeuristics.calculate_heuristic_cost`: straight-line distance over
the optimistic speed at the current vertex. -/
noncomputable def calculate_heuristic_cost (H : SailingHeuristics)
    (current goal : ℝ × ℝ) (current_idx : ℕ) : ℝ :=
  calculate_distance current goal / H.optimistic_speed (H.conditions_at_vertex current_idx)

end SailingHeuristics

/-! ## Evaluation lemmas for the geometry primitives at concrete inputs -/

theorem pmod_eq_self {x m : ℝ} (h0 : 0 ≤ x) (h1 : x < m) : pmod x m = x := by
  have hm : 0 < m := lt_of_le_of_lt h0 h1
  have : ⌊x / m⌋ = 0 := by
    rw [Int.floor_eq_zero_iff]
    constructor
    · exact div_nonneg h0 hm.le
    · rw [div_lt_one hm]; exact h1
  simp [pmod, this]

theorem pmod_eq_sub {x m : ℝ} (h0 : m ≤ x) (h1 : x < 2 * m) (hm : 0 < m) :
    pmod x m = x - m := by
  have : ⌊x / m⌋ = 1 := by
    rw [Int.floor_eq_iff]
    constructor
    · simpa using (one_le_div hm).mpr h0
    · push_cast
      rw [div_lt_iff hm]
      linarith
  simp [pmod, this]

theorem degrees_zero : degrees 0 = 0 := by simp [degrees]

theorem degrees_pi : degrees Real.pi = 180 := by
  rw [degrees]
  field_simp

theorem degrees_pi_div_two : degrees (Real.pi / 2) = 90 := by
  rw [degrees]
  field_simp
  ring

theorem atan2_zero_pos {x : ℝ} (hx : 0 < x) : atan2 0 x = 0 := by
  rw [atan2, if_pos hx, zero_div, Real.arctan_zero]

theorem atan2_zero_neg {x : ℝ} (hx : x < 0) : atan2 0 x = Real.pi := by
  rw [atan2, if_neg (by linarith), if_pos ⟨hx, le_refl 0⟩, zero_div, Real.arctan_zero,
    zero_add]

theorem atan2_pos_zero {y : ℝ} (hy : 0 < y) : atan2 y 0 = Real.pi / 2 := by
  rw [atan2, if_neg (lt_irrefl 0), if_neg (by simp), if_neg (by simp), if_pos ⟨rfl, hy⟩]

/-- Bearing of a due-north edge is 0°. -/
theorem calculate_bearing_north {x y d : ℝ} (hd : 0 < d) :
    calculate_bearing (x, y) (x, y + d) = 0 := by
  have h1 : atan2 (x - x) (y + d - y) = 0 := by
    rw [show x - x = (0 : ℝ) by ring]
    exact atan2_zero_pos (by linarith [hd] : (0:ℝ) < y + d - y)
  rw [calculate_bearing, h1, degrees_zero, zero_add]
  rw [pmod_eq_sub (by norm_num) (by norm_num) (by norm_num)]
  norm_num

/-- Bearing of a due-south edge is 180°. -/
theorem calculate_bearing_south {x y d : ℝ} (hd : 0 < d) :
    calculate_bearing (x, y) (x, y - d) = 180 := by
  have h1 : atan2 (x - x) (y - d - y) = Real.pi := by
    rw [show x - x = (0 : ℝ) by ring]
    exact atan2_zero_neg (by linarith [hd] : y - d - y < 0)
  rw [calculate_bearing, h1, degrees_pi]
  rw [pmod_eq_sub (by norm_num) (by norm_num) (by norm_num)]
  norm_num

/-- Bearing of a due-east edge is 90°. -/
theorem calculate_bearing_east {x y d : ℝ} (hd : 0 < d) :
    calculate_bearing (x, y) (x + d, y) = 90 := by
  have h1 : atan2 (x + d - x) (y - y) = Real.pi / 2 := by
    rw [show y - y = (0 : ℝ) by ring]
    exact atan2_pos_zero (by linarith [hd] : (0:ℝ) < x + d - x)
  rw [calculate_bearing, h1, degrees_pi_div_two]
  rw [pmod_eq_sub (by norm_num) (by norm_num) (by norm_num)]
  norm_num

/-- Distance along a vertical edge. -/
theorem calculate_distance_vert (x y z : ℝ) :
    calculate_distance (x, y) (x, z) = |z - y| := by
  rw [calculate_distance]
  rw [show (x - x) * (x - x) + (z - y) * (z - y) = (z - y) * (z - y) by ring]
  exact Real.sqrt_mul_self_eq_abs _

/-- Distance along a horizontal edge. -/
theorem calculate_distance_horiz (x y z : ℝ) :
    calculate_distance (y, x) (z, x) = |z - y| := by
  rw [calculate_distance]
  rw [show (z - y) * (z - y) + (x - x) * (x - x) = (z - y) * (z - y) by ring]
  exact Real.sqrt_mul_self_eq_abs _

theorem calculate_distance_self (p : ℝ × ℝ) : calculate_distance p p = 0 := by
  simp [calculate_distance]

theorem calculate_distance_eq_complex (p q : ℝ × ℝ) :
    calculate_distance p q = Complex.abs ⟨q.1 - p.1, q.2 - p.2⟩ := by
  rw [calculate_distance, Complex.abs_apply, Complex.normSq_mk]

/-- The Euclidean edge length obeys the triangle inequality; this is what makes
straight-line-distance-based heuristics admissible when edge speeds never
exceed the heuristic speed. -/
theorem calculate_distance_triangle (p q r : ℝ × ℝ) :
    calculate_distance p r ≤ calculate_distance p q + calculate_distance q r := by
  rw [calculate_distance_eq_complex, calculate_distance_eq_complex,
    calculate_distance_eq_complex]
  have h : (⟨r.1 - p.1, r.2 - p.2⟩ : ℂ) = ⟨q.1 - p.1, q.2 - p.2⟩ + ⟨r.1 - q.1, r.2 - q.2⟩ := by
    apply Complex.ext <;> simp
  rw [h]
  exact Complex.abs.add_le _ _

theorem calculate_distance_nonneg (p q : ℝ × ℝ) : 0 ≤ calculate_distance p q :=
  Real.sqrt_nonneg _

/-! ## Shared concrete fixtures -/

/-- A yacht with a 100 ft hull and every optional field `None`. -/
def plainYacht : Yacht :=
  { length := 100, beam := 30, draft := none, max_speed := none, max_wind_speed := none
    amount_of_crew := none, tack_time := none, jibe_time := none, polar_data := none }

/-- Heuristics over `plainYacht` with no weather mapping at all: every vertex
falls back to the default conditions (10 kt wind from 0°, 1 m waves from 0°,
0.5 kt current from 0°). -/
def plainHeuristics : SailingHeuristics :=
  { yacht := plainYacht, nav_to_weather := fun _ => none, weather_data := fun _ => none }

theorem plainHeuristics_conditions (i : ℕ) :
    plainHeuristics.conditions_at_vertex i =
      { wind_speed := 10, wind_direction := 0, wave_height := 1, wave_direction := 0
        wave_period := 5, current_velocity := 0.5, current_direction := 0 } := by
  simp [SailingHeuristics.conditions_at_vertex, plainHeuristics]

/-! ## Mesh adjacency and path costs -/

/-- `SailingRouter._build_navigation_graph`: the adjacency lists derived from
the triangle mesh — for each triangle, every vertex is connected to the other
two positions (`for i, j in 3×3, i ≠ j`).  The source initializes a set for
every index in `range(len(vertices))`; `dedup` models the set semantics. -/
def buildNavigationGraph (n : ℕ) (triangles : List (ℕ × ℕ × ℕ)) (v : ℕ) : List ℕ :=
  if v < n then
    (triangles.foldr (fun t acc =>
      (if t.1 = v then [t.2.1, t.2.2] else []) ++
      (if t.2.1 = v then [t.1, t.2.2] else []) ++
      (if t.2.2 = v then [t.1, t.2.1] else []) ++ acc) []).dedup
  else []

/-- Total `calculate_edge_cost` of the suffix of a path starting at vertex `a`,
with the previous heading threaded exactly as the A* `g`-score accumulation
threads it (the heading of the edge that led into each vertex).  `none` models
an infinite (impassable) total. -/
noncomputable def path_cost_from (H : SailingHeuristics) (V : ℕ → ℝ × ℝ)
    (prev : Option ℝ) (a : ℕ) : List ℕ → Option ℝ
  | [] => some 0
  | b :: rest =>
    match H.calculate_edge_cost (V a) (V b) a b prev with
    | none => none
    | some c =>
      match path_cost_from H V (some (calculate_bearing (V a) (V b))) b rest with
      | none => none
      | some s => some (c + s)

/-- Total `calculate_edge_cost` of a path of mesh vertices (no previous heading
on the first edge). -/
noncomputable def path_cost (H : SailingHeuristics) (V : ℕ → ℝ × ℝ) :
    List ℕ → Option ℝ
  | [] => some 0
  | a :: rest => path_cost_from H V none a rest

/-! ## C3 — the dead-angle rule -/

/-- C3: for every heuristics state, edge, and previous heading, if the absolute
true wind angle between the edge's bearing and the wind direction at the
destination vertex is strictly below the 30° dead angle, `calculate_edge_cost`
returns `+∞` (modelled `none`): the edge is impassable. -/
theorem edge_cost_dead_angle (H : SailingHeuristics) (from_vertex to_vertex : ℝ × ℝ)
    (from_idx to_idx : ℕ) (previous_heading : Option ℝ)
    (h : |calculate_twa (calculate_bearing from_vertex to_vertex)
          ((H.conditions_at_vertex to_idx).wind_direction)| < 30) :
    H.calculate_edge_cost from_vertex to_vertex from_idx to_idx previous_heading = none := by
  simp only [SailingHeuristics.calculate_edge_cost, SailingHeuristics.DEAD_ANGLE]
  rw [if_pos h]

/-- C3 witness: a due-north edge under the default wind (from 0°) has TWA 0 and
is rejected. -/
theorem edge_cost_dead_angle_witness :
    |calculate_twa (calculate_bearing ((0 : ℝ), (0 : ℝ)) ((0 : ℝ), (100 : ℝ)))
      ((plainHeuristics.conditions_at_vertex 1).wind_direction)| < 30 ∧
    plainHeuristics.calculate_edge_cost (0, 0) (0, 100) 0 1 none = none := by
  have hb : calculate_bearing ((0 : ℝ), (0 : ℝ)) ((0 : ℝ), (100 : ℝ)) = 0 := by
    have := calculate_bearing_north (x := (0:ℝ)) (y := (0:ℝ)) (d := (100:ℝ)) (by norm_num)
    simpa using this
  have h : |calculate_twa (calculate_bearing ((0 : ℝ), (0 : ℝ)) ((0 : ℝ), (100 : ℝ)))
      ((plainHeuristics.conditions_at_vertex 1).wind_direction)| < 30 := by
    rw [hb, plainHeuristics_conditions]
    norm_num [calculate_twa]
  exact ⟨h, edge_cost_dead_angle plainHeuristics _ _ 0 1 none h⟩

/-! ## C4 — the tack maneuver penalty -/

/-- C4 counterexample: with the default yacht (no `tack_time`, so the tack time
in seconds is 120) a tack that also changes heading by more than 60° is charged
130 s, not 120 s, refuting "the maneuver penalty equals the yacht's tack time in
seconds" as stated. -/
theorem maneuver_penalty_tack_counterexample :
    |(-45 : ℝ)| < 90 ∧ |(45 : ℝ)| < 90 ∧ (-45 : ℝ) * 45 < 0 ∧
    plainHeuristics.calculate_maneuver_penalty 0 90 (-45) 45 = 130 ∧ (130 : ℝ) ≠ 120 := by
  refine ⟨by norm_num, by norm_num, by norm_num, ?_, by norm_num⟩
  simp only [SailingHeuristics.calculate_maneuver_penalty, SailingHeuristics.heading_change,
    SailingHeuristics.TACKING_PENALTY, plainHeuristics, plainYacht]
  norm_num

/-- C4 (amended): when the previous heading is known, both TWAs are below 90° in
absolute value and their signs differ, the maneuver penalty equals the yacht's
tack time in seconds (`tack_time * 60`, defaulting to 120 s when unset), plus an
extra 10 s whenever the normalized heading change exceeds 60°. -/
theorem maneuver_penalty_tack (H : SailingHeuristics) (fh th ft tt : ℝ)
    (h1 : |ft| < 90) (h2 : |tt| < 90) (h3 : ft * tt < 0) :
    H.calculate_maneuver_penalty fh th ft tt =
      H.TACKING_PENALTY + (if 60 < SailingHeuristics.heading_change fh th then 10 else 0) := by
  simp only [SailingHeuristics.calculate_maneuver_penalty]
  rw [if_pos ⟨h1, h2⟩, if_pos h3]

/-- C4 witness: the amended statement evaluated on a concrete tack with a 90°
heading change. -/
theorem maneuver_penalty_tack_witness :
    |(-45 : ℝ)| < 90 ∧ |(45 : ℝ)| < 90 ∧ (-45 : ℝ) * 45 < 0 ∧
    plainHeuristics.calculate_maneuver_penalty 10 100 (-45) 45 = 130 := by
  refine ⟨by norm_num, by norm_num, by norm_num, ?_⟩
  rw [maneuver_penalty_tack plainHeuristics 10 100 (-45) 45 (by norm_num) (by norm_num)
    (by norm_num)]
  simp only [SailingHeuristics.TACKING_PENALTY, SailingHeuristics.heading_change,
    plainHeuristics, plainYacht]
  norm_num

/-! ## C1 — admissibility of the A* heuristic -/

theorem maneuver_penalty_nonneg (H : SailingHeuristics)
    (ht : 0 ≤ H.TACKING_PENALTY) (hg : 0 ≤ H.GYBING_PENALTY)
    (fh th ft tt : ℝ) : 0 ≤ H.calculate_maneuver_penalty fh th ft tt := by
  simp only [SailingHeuristics.calculate_maneuver_penalty]
  split_ifs <;> linarith

/-- If every finite edge cost is at least the edge length divided by a fixed
positive speed, the straight-line distance from the path head to its last
vertex, divided by that speed, lower-bounds the (finite) total path cost. -/
theorem path_cost_lower_bound_aux (H : SailingHeuristics) (V : ℕ → ℝ × ℝ) (vopt : ℝ)
    (hv : 0 < vopt) :
    ∀ (rest : List ℕ) (prev : Option ℝ) (a : ℕ) (c : ℝ),
      path_cost_from H V prev a rest = some c →
      (∀ p ∈ (a :: rest).zip rest, ∀ (prev2 : Option ℝ) (ce : ℝ),
        H.calculate_edge_cost (V p.1) (V p.2) p.1 p.2 prev2 = some ce →
        calculate_distance (V p.1) (V p.2) / vopt ≤ ce) →
      calculate_distance (V a) (V ((a :: rest).getLast (by simp))) / vopt ≤ c := by
  intro rest
  induction rest with
  | nil =>
    intro prev a c hc _
    simp only [path_cost_from, Option.some.injEq] at hc
    subst hc
    simp [calculate_distance_self]
  | cons b rest ih =>
    intro prev a c hc hedges
    simp only [path_cost_from] at hc
    rcases h1 : H.calculate_edge_cost (V a) (V b) a b prev with _ | ce
    · rw [h1] at hc; exact absurd hc (by simp)
    rw [h1] at hc
    rcases h2 : path_cost_from H V (some (calculate_bearing (V a) (V b))) b rest
      with _ | s
    · rw [h2] at hc; exact absurd hc (by simp)
    rw [h2] at hc
    simp only [Option.some.injEq] at hc
    subst hc
    have hce : calculate_distance (V a) (V b) / vopt ≤ ce :=
      hedges (a, b) (by simp) prev ce h1
    have hs : calculate_distance (V b) (V ((b :: rest).getLast (by simp))) / vopt ≤ s := by
      refine ih (some (calculate_bearing (V a) (V b))) b s h2 ?_
      intro p hp prev2 ce2 hc2
      refine hedges p ?_ prev2 ce2 hc2
      simp only [List.zip_cons_cons, List.mem_cons]
      right
      exact hp
    have hlast : ((a :: b :: rest).getLast (by simp)) = ((b :: rest).getLast (by simp)) :=
      List.getLast_cons (by simp)
    rw [hlast]
    have htri := calculate_distance_triangle (V a) (V b) (V ((b :: rest).getLast (by simp)))
    have h3 : calculate_distance (V a) (V ((b :: rest).getLast (by simp))) / vopt ≤
        (calculate_distance (V a) (V b) +
          calculate_distance (V b) (V ((b :: rest).getLast (by simp)))) / vopt :=
      (div_le_div_right hv).mpr htri
    rw [add_div] at h3
    linarith

/-- C1 (amended): the heuristic `distance / optimistic_speed` lower-bounds the
total cost of a finite path of mesh edges, provided every finite edge cost of
the path is at least the edge's length divided by the optimistic speed at the
path head (i.e. no edge of the path is traversed faster than the heuristic's
optimistic speed).  Unconditionally the claim is false: the 0.5 m/s edge-speed
floor, favorable currents, or polar speeds can beat the optimistic speed (see
the counterexample). -/
theorem heuristic_lower_bounds_path_cost (H : SailingHeuristics) (V : ℕ → ℝ × ℝ)
    (u : ℕ) (rest : List ℕ) (c : ℝ)
    (hopt : 0 < H.optimistic_speed (H.conditions_at_vertex u))
    (hpc : path_cost H V (u :: rest) = some c)
    (hedges : ∀ p ∈ (u :: rest).zip rest, ∀ (prev : Option ℝ) (ce : ℝ),
      H.calculate_edge_cost (V p.1) (V p.2) p.1 p.2 prev = some ce →
      calculate_distance (V p.1) (V p.2) /
        H.optimistic_speed (H.conditions_at_vertex u) ≤ ce) :
    H.calculate_heuristic_cost (V u) (V ((u :: rest).getLast (by simp))) u ≤ c := by
  have h := path_cost_lower_bound_aux H V
    (H.optimistic_speed (H.conditions_at_vertex u)) hopt rest none u c
    (by simpa [path_cost] using hpc) hedges
  simpa [SailingHeuristics.calculate_heuristic_cost] using h

/-- Calm-weather marine record: 2 m/s of wind (≈3.9 kt, i.e. light wind), no
waves, no current. -/
def calmWeather : WeatherRaw :=
  { wind_speed_10m := 2, wind_direction_10m := 0, wave_height := 0, wave_direction := 0
    wave_period := 5, current_speed := 0, current_direction := 0 }

/-- A slow yacht: 100 ft hull but max polar speed 1 kt. -/
def slowYacht : Yacht :=
  { length := 100, beam := 30, draft := none, max_speed := some 1, max_wind_speed := none
    amount_of_crew := none, tack_time := none, jibe_time := none, polar_data := none }

/-- Heuristics for the slow yacht in calm weather: every vertex maps to weather
point 0 carrying `calmWeather`. -/
def cexHeuristics : SailingHeuristics :=
  { yacht := slowYacht, nav_to_weather := fun _ => some 0
    weather_data := fun _ => some calmWeather }

/-- Heuristics for the plain (uncapped) yacht in the same calm weather. -/
def calmHeuristics : SailingHeuristics :=
  { yacht := plainYacht, nav_to_weather := fun _ => some 0
    weather_data := fun _ => some calmWeather }

/-- Concrete mesh vertex positions: vertex 0 at the origin, vertex 1 100 m due
north of it, vertex 2 off to the side. -/
noncomputable def meshVertices : ℕ → ℝ × ℝ :=
  fun i => if i = 0 then (0, 0) else if i = 1 then (0, 100) else (50, 50)

theorem cex_conditions (i : ℕ) :
    cexHeuristics.conditions_at_vertex i =
      { wind_speed := 3.88768, wind_direction := 0, wave_height := 0, wave_direction := 0
        wave_period := 5, current_velocity := 0, current_direction := 0 } := by
  have h0 : pmod 0 360 = 0 := pmod_eq_self le_rfl (by norm_num)
  simp only [SailingHeuristics.conditions_at_vertex, cexHeuristics, calmWeather,
    SailingConditions.from_weather_data, h0]
  norm_num

theorem calm_conditions (i : ℕ) :
    calmHeuristics.conditions_at_vertex i =
      { wind_speed := 3.88768, wind_direction := 0, wave_height := 0, wave_direction := 0
        wave_period := 5, current_velocity := 0, current_direction := 0 } := by
  have h0 : pmod 0 360 = 0 := pmod_eq_self le_rfl (by norm_num)
  simp only [SailingHeuristics.conditions_at_vertex, calmHeuristics, calmWeather,
    SailingConditions.from_weather_data, h0]
  norm_num

theorem meshVertices_bearing : calculate_bearing (meshVertices 1) (meshVertices 0) = 180 := by
  have h := calculate_bearing_south (x := (0:ℝ)) (y := (100:ℝ)) (d := (100:ℝ)) (by norm_num)
  norm_num at h
  simpa [meshVertices] using h

theorem meshVertices_distance : calculate_distance (meshVertices 1) (meshVertices 0) = 100 := by
  have h := calculate_distance_vert (0:ℝ) 100 0
  norm_num at h
  simpa [meshVertices] using h

/-- Full evaluation of the edge cost of the 100 m due-south edge for the slow
yacht in calm weather: light wind floors the boat speed at 0.5 m/s, so the edge
takes `100 / 0.5 = 200 s`, times the light-wind comfort factor. -/
theorem cex_edge_eval :
    cexHeuristics.calculate_edge_cost (meshVertices 1) (meshVertices 0) 1 0 none =
      some 213.56140544 := by
  simp only [SailingHeuristics.calculate_edge_cost, cex_conditions, meshVertices_bearing,
    meshVertices_distance]
  norm_num [SailingHeuristics.DEAD_ANGLE, calculate_twa, SailingHeuristics.get_boat_speed,
    SailingHeuristics.simple_polar_model, cexHeuristics, slowYacht,
    SailingHeuristics.apply_current_effect, SailingHeuristics.calculate_wave_penalty,
    SailingHeuristics.calculate_comfort_penalty, SailingHeuristics.yacht_length_m,
    optTruthy, min_def, max_def, abs_of_nonneg]

/-- C1 counterexample: in the concrete mesh `[(0,1,2)]`, under calm (light-wind)
weather and the slow yacht, the single-edge path `[1, 0]` costs ≈213.6 s, while
the heuristic at vertex 1 towards goal 0 claims a lower bound of
`100 / (1 kt · 0.514444 · 0.5) ≈ 388.8 s`: the heuristic overestimates and is
not admissible. -/
theorem heuristic_admissibility_counterexample :
    0 ∈ buildNavigationGraph 3 [(0, 1, 2)] 1 ∧
    path_cost cexHeuristics meshVertices [1, 0] = some 213.56140544 ∧
    (213.56140544 : ℝ) <
      cexHeuristics.calculate_heuristic_cost (meshVertices 1) (meshVertices 0) 1 := by
  refine ⟨by decide, ?_, ?_⟩
  · simp only [path_cost, path_cost_from, cex_edge_eval]
    norm_num
  · rw [SailingHeuristics.calculate_heuristic_cost, meshVertices_distance, cex_conditions]
    norm_num [SailingHeuristics.optimistic_speed, cexHeuristics, slowYacht]

/-- Evaluation of the same edge for the plain (uncapped) yacht, with an
arbitrary previous heading: the floored 0.5 m/s speed gives 200 s plus the
maneuver penalty, times the light-wind comfort factor. -/
theorem calm_edge_eval (prev : Option ℝ) :
    calmHeuristics.calculate_edge_cost (meshVertices 1) (meshVertices 0) 1 0 prev =
      some ((200 + (match prev with
        | some ph => calmHeuristics.calculate_maneuver_penalty ph 180
            (calculate_twa ph 0) 180
        | none => 0)) * (1 + 0.0678070272)) := by
  have ht : calculate_twa 180 0 = 180 := by norm_num [calculate_twa]
  rcases prev with _ | ph <;>
  · simp only [SailingHeuristics.calculate_edge_cost, calm_conditions, meshVertices_bearing,
      meshVertices_distance, Option.getD_some, Option.getD_none, ht]
    norm_num [SailingHeuristics.DEAD_ANGLE, SailingHeuristics.get_boat_speed,
      SailingHeuristics.simple_polar_model, calmHeuristics, plainYacht,
      SailingHeuristics.apply_current_effect, SailingHeuristics.calculate_wave_penalty,
      SailingHeuristics.calculate_comfort_penalty, SailingHeuristics.yacht_length_m,
      optTruthy, min_def, max_def, abs_of_nonneg]

theorem calm_opt_speed :
    calmHeuristics.optimistic_speed (calmHeuristics.conditions_at_vertex 1) = 2.5 := by
  rw [calm_conditions]
  norm_num [SailingHeuristics.optimistic_speed, calmHeuristics, plainYacht]

/-- C1 witness: the amended lower-bound theorem applied to the concrete
single-edge path `[1, 0]` for the plain yacht in calm weather, where the edge
is slower than the optimistic 2.5 m/s. -/
theorem heuristic_lower_bounds_path_cost_witness :
    0 < calmHeuristics.optimistic_speed (calmHeuristics.conditions_at_vertex 1) ∧
    path_cost calmHeuristics meshVertices [1, 0] = some (200 * (1 + 0.0678070272)) ∧
    calmHeuristics.calculate_heuristic_cost (meshVertices 1) (meshVertices 0) 1 ≤
      200 * (1 + 0.0678070272) := by
  have hopt : 0 < calmHeuristics.optimistic_speed (calmHeuristics.conditions_at_vertex 1) := by
    rw [calm_opt_speed]; norm_num
  have hpc : path_cost calmHeuristics meshVertices [1, 0] =
      some (200 * (1 + 0.0678070272)) := by
    simp only [path_cost, path_cost_from, calm_edge_eval]
    norm_num
  have hedges : ∀ p ∈ ([(1 : ℕ), 0]).zip [0], ∀ (prev : Option ℝ) (ce : ℝ),
      calmHeuristics.calculate_edge_cost (meshVertices p.1) (meshVertices p.2) p.1 p.2 prev =
        some ce →
      calculate_distance (meshVertices p.1) (meshVertices p.2) /
        calmHeuristics.optimistic_speed (calmHeuristics.conditions_at_vertex 1) ≤ ce := by
    intro p hp prev ce hce
    have hp2 : p = (1, 0) := by simpa using hp
    subst hp2
    rw [calm_edge_eval prev] at hce
    simp only [Option.some.injEq] at hce
    rw [meshVertices_distance, calm_opt_speed]
    rcases prev with _ | ph
    · rw [← hce]; norm_num
    · have hpen : 0 ≤ calmHeuristics.calculate_maneuver_penalty ph 180
          (calculate_twa ph 0) 180 := by
        refine maneuver_penalty_nonneg calmHeuristics ?_ ?_ _ _ _ _
        · simp only [SailingHeuristics.TACKING_PENALTY, calmHeuristics, plainYacht]
          norm_num
        · simp only [SailingHeuristics.GYBING_PENALTY, calmHeuristics, plainYacht]
          norm_num
      rw [← hce]
      nlinarith [hpen]
  have happ := heuristic_lower_bounds_path_cost calmHeuristics meshVertices 1 [0]
    (200 * (1 + 0.0678070272)) hopt hpc hedges
  have hlast : (((1 : ℕ) :: [0]).getLast (by simp)) = 0 := rfl
  rw [hlast] at happ
  exact ⟨hopt, hpc, happ⟩

/-! ## C5 — `WeatherDataValidator.validate_weather_data`
(`app/services/weather/validator.py`) -/

/-- What a required key of the weather dict can hold: missing, `None`, a
non-numeric value, a non-finite float (`inf`/`nan`), or a finite number. -/
inductive FieldVal
  | absent
  | null
  | notNumeric
  | notFinite
  | num (q : ℚ)
deriving DecidableEq

/-- The seven required field names of `validate_weather_data`. -/
inductive WField
  | wind_speed_10m
  | wind_direction_10m
  | wave_height
  | wave_direction
  | wave_period
  | current_speed
  | current_direction
deriving DecidableEq

/-- The `required_fields` list, in source order. -/
def requiredFields : List WField :=
  [.wind_speed_10m, .wind_direction_10m, .wave_height, .wave_direction, .wave_period,
   .current_speed, .current_direction]

/-- `'direction' in field`. -/
def isDirection : WField → Bool
  | .wind_direction_10m => true
  | .wave_direction => true
  | .current_direction => true
  | _ => false

/-- The per-field body of the `validate_weather_data` loop: missing, `None`,
non-numeric and non-finite values are rejected; finite numbers are checked
against the per-field ranges. -/
def checkField (f : WField) (v : FieldVal) : Bool :=
  match v with
  | .num q =>
    if f = .wind_speed_10m ∧ (q < 0 ∨ 100 < q) then false
    else if f = .wave_height ∧ (q < 0 ∨ 30 < q) then false
    else if f = .wave_period ∧ (q < 0 ∨ 30 < q) then false
    else if isDirection f = true ∧ (q < 0 ∨ 360 ≤ q) then false
    else true
  | _ => false

/-- `WeatherDataValidator.validate_weather_data`: every required field passes
its check (the source's early-return loop). -/
def validate_weather_data (d : WField → FieldVal) : Bool :=
  requiredFields.all (fun f => checkField f (d f))

/-- The claim's acceptance predicate, following the spec's words: every
required field present, numeric and finite, `wind_speed_10m ∈ [0, 100]`,
`wave_height ∈ [0, 30]`, every direction in `[0, 360)` — with no range
constraint on `wave_period`. -/
def weather_spec_predicate (d : WField → FieldVal) : Prop :=
  (∃ q, d .wind_speed_10m = .num q ∧ 0 ≤ q ∧ q ≤ 100) ∧
  (∃ q, d .wind_direction_10m = .num q ∧ 0 ≤ q ∧ q < 360) ∧
  (∃ q, d .wave_height = .num q ∧ 0 ≤ q ∧ q ≤ 30) ∧
  (∃ q, d .wave_direction = .num q ∧ 0 ≤ q ∧ q < 360) ∧
  (∃ q, d .wave_period = .num q) ∧
  (∃ q, d .current_speed = .num q) ∧
  (∃ q, d .current_direction = .num q ∧ 0 ≤ q ∧ q < 360)

theorem checkField_wind_speed_iff (v : FieldVal) :
    checkField .wind_speed_10m v = true ↔ ∃ q, v = .num q ∧ 0 ≤ q ∧ q ≤ 100 := by
  rcases v with _ | _ | _ | _ | q <;> simp [checkField, isDirection]

theorem checkField_wave_height_iff (v : FieldVal) :
    checkField .wave_height v = true ↔ ∃ q, v = .num q ∧ 0 ≤ q ∧ q ≤ 30 := by
  rcases v with _ | _ | _ | _ | q <;> simp [checkField, isDirection]

theorem checkField_wave_period_iff (v : FieldVal) :
    checkField .wave_period v = true ↔ ∃ q, v = .num q ∧ 0 ≤ q ∧ q ≤ 30 := by
  rcases v with _ | _ | _ | _ | q <;> simp [checkField, isDirection]

theorem checkField_direction_iff (f : WField) (hf : isDirection f = true) (v : FieldVal) :
    checkField f v = true ↔ ∃ q, v = .num q ∧ 0 ≤ q ∧ q < 360 := by
  have hf1 : f ≠ .wind_speed_10m := by rintro rfl; simp [isDirection] at hf
  have hf2 : f ≠ .wave_height := by rintro rfl; simp [isDirection] at hf
  have hf3 : f ≠ .wave_period := by rintro rfl; simp [isDirection] at hf
  rcases v with _ | _ | _ | _ | q <;> simp [checkField, hf1, hf2, hf3, hf]

theorem checkField_current_speed_iff (v : FieldVal) :
    checkField .current_speed v = true ↔ ∃ q, v = .num q := by
  rcases v with _ | _ | _ | _ | q <;> simp [checkField, isDirection]

/-- C5 counterexample: a record whose seven fields are all finite numbers in
the claimed ranges but whose `wave_period` is 31 s satisfies the claim's
acceptance predicate yet is rejected by the validator — the claimed "if and
only if" is false because the source also requires `wave_period ∈ [0, 30]`. -/
theorem validate_weather_data_counterexample :
    weather_spec_predicate (fun f => match f with
      | .wind_speed_10m => .num 10
      | .wave_height => .num 1
      | .wave_period => .num 31
      | _ => .num 0) ∧
    validate_weather_data (fun f => match f with
      | .wind_speed_10m => .num 10
      | .wave_height => .num 1
      | .wave_period => .num 31
      | _ => .num 0) = false := by
  constructor
  · exact ⟨⟨10, rfl, by norm_num⟩, ⟨0, rfl, by norm_num⟩, ⟨1, rfl, by norm_num⟩,
      ⟨0, rfl, by norm_num⟩, ⟨31, rfl⟩, ⟨0, rfl⟩, ⟨0, rfl, by norm_num⟩⟩
  · decide

/-- C5 (amended): `validate_weather_data` accepts a record iff every required
field is present, numeric and finite, `wind_speed_10m ∈ [0, 100]` kt,
`wave_height ∈ [0, 30]` m, `wave_period ∈ [0, 30]` s (this bound is missing
from the claim), and every direction lies in `[0, 360)`. -/
theorem validate_weather_data_iff (d : WField → FieldVal) :
    validate_weather_data d = true ↔
      (∃ q, d .wind_speed_10m = .num q ∧ 0 ≤ q ∧ q ≤ 100) ∧
      (∃ q, d .wind_direction_10m = .num q ∧ 0 ≤ q ∧ q < 360) ∧
      (∃ q, d .wave_height = .num q ∧ 0 ≤ q ∧ q ≤ 30) ∧
      (∃ q, d .wave_direction = .num q ∧ 0 ≤ q ∧ q < 360) ∧
      (∃ q, d .wave_period = .num q ∧ 0 ≤ q ∧ q ≤ 30) ∧
      (∃ q, d .current_speed = .num q) ∧
      (∃ q, d .current_direction = .num q ∧ 0 ≤ q ∧ q < 360) := by
  rw [validate_weather_data, requiredFields]
  simp only [List.all_cons, List.all_nil, Bool.and_true, Bool.and_eq_true]
  rw [checkField_wind_speed_iff, checkField_wave_height_iff, checkField_wave_period_iff,
    checkField_current_speed_iff, checkField_direction_iff _ (by rfl),
    checkField_direction_iff (f := .wave_direction) (by rfl),
    checkField_direction_iff (f := .current_direction) (by rfl)]

/-! ## C7 — `TimeAwareWeatherPoint.cache_key` time rounding
(`app/schemas/time_aware_weather.py`) -/

/-- A Python `datetime` truncated to the fields the cache-key rounding touches.
`hour` counts absolute hours (the `+ timedelta(hours=1)` carry), `minute`,
`second`, `microsecond` are the usual components. -/
structure PyTime where
  hour : ℕ
  minute : ℕ
  second : ℕ
  micro : ℕ
deriving DecidableEq

/-- Absolute time in microseconds. -/
def PyTime.toMicros (t : PyTime) : ℕ :=
  ((t.hour * 60 + t.minute) * 60 + t.second) * 1000000 + t.micro

/-- The time component of `TimeAwareWeatherPoint.cache_key` with the default
`time_round_minutes = 15`: `minutes_ceil = ceil(minute / 15) * 15` (for natural
`minute` this is `((minute + 14) / 15) * 15`); when it reaches 60, add one hour
and zero the minutes; in both branches seconds and microseconds are zeroed. -/
def roundEtaQuarter (t : PyTime) : PyTime :=
  let minutes_ceil := ((t.minute + 14) / 15) * 15
  if 60 ≤ minutes_ceil then { hour := t.hour + 1, minute := 0, second := 0, micro := 0 }
  else { hour := t.hour, minute := minutes_ceil, second := 0, micro := 0 }

/-- C7 counterexample: an eta of 12:15:30 already has its minute on a
quarter-hour boundary, so `ceil(15/15)*15 = 15` and the "rounded" key time
12:15:00 is 30 s *before* the eta, refuting "greater than or equal to eta". -/
theorem cache_key_rounding_counterexample :
    roundEtaQuarter { hour := 12, minute := 15, second := 30, micro := 0 } =
      { hour := 12, minute := 15, second := 0, micro := 0 } ∧
    (roundEtaQuarter { hour := 12, minute := 15, second := 30, micro := 0 }).toMicros <
      PyTime.toMicros { hour := 12, minute := 15, second := 30, micro := 0 } := by
  constructor
  · rfl
  · decide

/-- C7 (amended): for a well-formed eta, the cache-key time lies on a
quarter-hour boundary (minute divisible by 15, zero seconds and microseconds),
is at least the eta truncated to the whole minute (but can be up to a minute
before the eta itself, when the minute is already on a boundary and
seconds/microseconds are nonzero), and is at most 15 minutes after the eta. -/
theorem cache_key_rounding_bounds (t : PyTime)
    (hm : t.minute < 60) (hs : t.second < 60) (hu : t.micro < 1000000) :
    (roundEtaQuarter t).minute % 15 = 0 ∧
    (roundEtaQuarter t).second = 0 ∧
    (roundEtaQuarter t).micro = 0 ∧
    PyTime.toMicros { hour := t.hour, minute := t.minute, second := 0, micro := 0 } ≤
      (roundEtaQuarter t).toMicros ∧
    (roundEtaQuarter t).toMicros ≤ t.toMicros + 15 * 60 * 1000000 := by
  obtain ⟨h, m, s, u⟩ := t
  simp only [roundEtaQuarter, PyTime.toMicros] at *
  split <;> simp_all <;> omega

/-- C7 witness: the amended bounds at the eta 9:07:23.5. -/
theorem cache_key_rounding_bounds_witness :
    (7 : ℕ) < 60 ∧ (23 : ℕ) < 60 ∧ (500000 : ℕ) < 1000000 ∧
    ((roundEtaQuarter { hour := 9, minute := 7, second := 23, micro := 500000 }).minute % 15 = 0 ∧
     (roundEtaQuarter { hour := 9, minute := 7, second := 23, micro := 500000 }).second = 0 ∧
     (roundEtaQuarter { hour := 9, minute := 7, second := 23, micro := 500000 }).micro = 0 ∧
     PyTime.toMicros { hour := 9, minute := 7, second := 0, micro := 0 } ≤
       (roundEtaQuarter { hour := 9, minute := 7, second := 23, micro := 500000 }).toMicros ∧
     (roundEtaQuarter { hour := 9, minute := 7, second := 23, micro := 500000 }).toMicros ≤
       PyTime.toMicros { hour := 9, minute := 7, second := 23, micro := 500000 } +
         15 * 60 * 1000000) :=
  ⟨by decide, by decide, by decide,
    cache_key_rounding_bounds { hour := 9, minute := 7, second := 23, micro := 500000 }
      (by decide) (by decide) (by decide)⟩

/-! ## C9 — the zonal weather-point budget split
(`ZonalWeatherPointSelector.select_points`, `app/services/mesh/zones.py`) -/

/-- The zone budget split of `select_points` (lines with the comment
"Proporcje: near=1.0, mid=0.25, far=0.125"):
`near = int(remaining * (1.0/1.375))`, `mid = int(remaining * (0.25/1.375))`,
`far = remaining - near - mid`.  The float factors `1.0/1.375` and
`0.25/1.375` are modelled by the exact rationals `8/11` and `2/11`; `int()` on
these non-negative values is the floor. -/
def zone_point_counts (remaining : ℕ) : ℕ × ℕ × ℕ :=
  let near_count := (⌊(remaining : ℚ) * (1 / 1.375)⌋).toNat
  let mid_count := (⌊(remaining : ℚ) * (0.25 / 1.375)⌋).toNat
  (near_count, mid_count, remaining - near_count - mid_count)

/-- C9 counterexample: with 10 points to distribute, the code allocates
(near, mid, far) = (7, 1, 2) — about 72.7 % / 18.2 % / 9.1 %, not the claimed
40 % / 40 % / 20 % (which would be (4, 4, 2)). -/
theorem zone_split_counterexample :
    zone_point_counts 10 = (7, 1, 2) ∧
    ¬((zone_point_counts 10).1 : ℚ) = 0.4 * 10 := by
  have h : zone_point_counts 10 = (7, 1, 2) := by
    simp only [zone_point_counts]
    norm_num [Prod.ext_iff]
    omega
  refine ⟨h, ?_⟩
  rw [h]
  norm_num

/-- C9 (amended): the budget is split in proportions 1 : 0.25 : 0.125, i.e.
8/11 : 2/11 : 1/11 (≈ 72.7 % / 18.2 % / 9.1 %): the three counts always sum to
`remaining`, the near count is within 1 below `remaining · 8/11`, the mid count
within 1 below `remaining · 2/11`, and the far count within 2 above
`remaining · 1/11`. -/
theorem zone_split_proportions (r : ℕ) :
    (zone_point_counts r).1 + (zone_point_counts r).2.1 + (zone_point_counts r).2.2 = r ∧
    ((zone_point_counts r).1 : ℚ) ≤ (r : ℚ) * (8 / 11) ∧
    (r : ℚ) * (8 / 11) - 1 < ((zone_point_counts r).1 : ℚ) ∧
    ((zone_point_counts r).2.1 : ℚ) ≤ (r : ℚ) * (2 / 11) ∧
    (r : ℚ) * (2 / 11) - 1 < ((zone_point_counts r).2.1 : ℚ) ∧
    (r : ℚ) * (1 / 11) ≤ ((zone_point_counts r).2.2 : ℚ) ∧
    ((zone_point_counts r).2.2 : ℚ) < (r : ℚ) * (1 / 11) + 2 := by
  have e1 : ((1 : ℚ) / 1.375) = 8 / 11 := by norm_num
  have e2 : ((0.25 : ℚ) / 1.375) = 2 / 11 := by norm_num
  simp only [zone_point_counts, e1, e2]
  set a : ℚ := (r : ℚ) * (8 / 11) with ha
  set b : ℚ := (r : ℚ) * (2 / 11) with hb
  have ha0 : 0 ≤ a := by positivity
  have hb0 : 0 ≤ b := by positivity
  have haf : (0 : ℤ) ≤ ⌊a⌋ := Int.floor_nonneg.mpr ha0
  have hbf : (0 : ℤ) ≤ ⌊b⌋ := Int.floor_nonneg.mpr hb0
  have han : (((⌊a⌋).toNat : ℚ)) = ((⌊a⌋ : ℤ) : ℚ) := by
    rw [show (((⌊a⌋).toNat : ℚ)) = (((⌊a⌋).toNat : ℤ) : ℚ) by push_cast; ring,
      Int.toNat_of_nonneg haf]
  have hbn : (((⌊b⌋).toNat : ℚ)) = ((⌊b⌋ : ℤ) : ℚ) := by
    rw [show (((⌊b⌋).toNat : ℚ)) = (((⌊b⌋).toNat : ℤ) : ℚ) by push_cast; ring,
      Int.toNat_of_nonneg hbf]
  have h1 : ((⌊a⌋).toNat : ℚ) ≤ a := by rw [han]; exact Int.floor_le a
  have h2 : a - 1 < ((⌊a⌋).toNat : ℚ) := by rw [han]; exact Int.sub_one_lt_floor a
  have h3 : ((⌊b⌋).toNat : ℚ) ≤ b := by rw [hbn]; exact Int.floor_le b
  have h4 : b - 1 < ((⌊b⌋).toNat : ℚ) := by rw [hbn]; exact Int.sub_one_lt_floor b
  have hr0 : (0 : ℚ) ≤ (r : ℚ) := Nat.cast_nonneg r
  have hsum : (⌊a⌋).toNat + (⌊b⌋).toNat ≤ r := by
    have hq : ((⌊a⌋).toNat : ℚ) + ((⌊b⌋).toNat : ℚ) ≤ (r : ℚ) := by
      rw [ha] at h1
      rw [hb] at h3
      linarith
    exact_mod_cast hq
  have hfar : ((r - (⌊a⌋).toNat - (⌊b⌋).toNat : ℕ) : ℚ) =
      (r : ℚ) - ((⌊a⌋).toNat : ℚ) - ((⌊b⌋).toNat : ℚ) := by
    rw [Nat.sub_sub, Nat.cast_sub hsum]
    push_cast
    ring
  refine ⟨by omega, h1, h2, h3, h4, ?_, ?_⟩
  · rw [hfar, ha] at *
    rw [hb] at h3
    linarith
  · rw [hfar, ha] at *
    rw [hb] at h4
    linarith

/-! ## C6 — per-iteration weather validation of mesh vertices
(`IterativeRouteCalculator._validate_weather`, `app/services/routing/iterative_routing.py`) -/

/-- One entry of `ctx.weather_points`: the stable weather index and the local
planar position. -/
structure WeatherPointInfo where
  idx : ℕ
  x : ℝ
  y : ℝ

/-- `scipy.spatial.KDTree.query(p, k=1)` over a list of planar positions:
the Euclidean distance to, and list index of, the nearest point (the earliest
index on ties). `none` only for an empty list. -/
noncomputable def kdNearest (p : ℝ × ℝ) : List (ℝ × ℝ) → Option (ℝ × ℕ)
  | [] => none
  | q :: rest =>
    match kdNearest p rest with
    | none => some (calculate_distance p q, 0)
    | some (d, i) =>
      if d < calculate_distance p q then some (d, i + 1)
      else some (calculate_distance p q, 0)

/-- `MAX_WEATHER_DISTANCE = 50000.0` in `_validate_weather`. -/
def MAX_WEATHER_DISTANCE : ℝ := 50000

/-- The vertex loop of `_validate_weather`
(`for nav_idx, nav_vertex in enumerate(ctx.vertices)`), with `i` the index of
the first vertex of `vs`: a vertex is kept as navigable when its nearest
weather sample lies within `MAX_WEATHER_DISTANCE`, the sample's data index is
in `weather_data`, and the validator accepts that record.  (The loop also
builds `weather_mapping`/`nav_to_weather`, which the caller rebuilds anyway;
only the navigable list is consumed.) -/
noncomputable def navigableLoop (wpos : List (ℝ × ℝ)) (wpresent : List WeatherPointInfo)
    (data : ℕ → Option (WField → FieldVal)) : List (ℝ × ℝ) → ℕ → List ℕ
  | [], _ => []
  | v :: vs, i =>
    let rest := navigableLoop wpos wpresent data vs (i + 1)
    match kdNearest v wpos with
    | none => rest
    | some (d, ni) =>
      if MAX_WEATHER_DISTANCE < d then rest
      else
        match wpresent.get? ni with
        | none => rest
        | some wp =>
          match data wp.idx with
          | none => rest
          | some wd => if validate_weather_data wd then i :: rest else rest

/-- `IterativeRouteCalculator._validate_weather`: keep the weather points whose
index has data, query each mesh vertex against the KD-tree of their positions,
and return the (unchanged) weather data together with the navigable vertex
indices; with no usable weather points it returns `({}, [])`. -/
noncomputable def iter_validate_weather (weather_points : List WeatherPointInfo)
    (data : ℕ → Option (WField → FieldVal)) (vertices : List (ℝ × ℝ)) :
    (ℕ → Option (WField → FieldVal)) × List ℕ :=
  let wpresent := weather_points.filter (fun wp => (data wp.idx).isSome)
  if wpresent.length = 0 then (fun _ => none, [])
  else (data, navigableLoop (wpresent.map (fun wp => (wp.x, wp.y))) wpresent data vertices 0)

theorem navigableLoop_cons_far {wpos : List (ℝ × ℝ)} {wpresent : List WeatherPointInfo}
    {data : ℕ → Option (WField → FieldVal)} {v0 : ℝ × ℝ} {vs : List (ℝ × ℝ)} {i0 : ℕ}
    {d : ℝ} {ni : ℕ} (hkd : kdNearest v0 wpos = some (d, ni))
    (hd : MAX_WEATHER_DISTANCE < d) :
    navigableLoop wpos wpresent data (v0 :: vs) i0 =
      navigableLoop wpos wpresent data vs (i0 + 1) := by
  simp only [navigableLoop, hkd]
  rw [if_pos hd]

theorem navigableLoop_cons_cases {wpos : List (ℝ × ℝ)} {wpresent : List WeatherPointInfo}
    {data : ℕ → Option (WField → FieldVal)} {v0 : ℝ × ℝ} {vs : List (ℝ × ℝ)} {i0 : ℕ}
    {x : ℕ} (hx : x ∈ navigableLoop wpos wpresent data (v0 :: vs) i0) :
    x = i0 ∨ x ∈ navigableLoop wpos wpresent data vs (i0 + 1) := by
  simp only [navigableLoop] at hx
  repeat' split at hx
  all_goals try exact Or.inr hx
  all_goals rcases List.mem_cons.mp hx with h | h
  all_goals tauto

theorem navigableLoop_mem_ge (wpos : List (ℝ × ℝ)) (wpresent : List WeatherPointInfo)
    (data : ℕ → Option (WField → FieldVal)) :
    ∀ (vs : List (ℝ × ℝ)) (i0 x : ℕ), x ∈ navigableLoop wpos wpresent data vs i0 → i0 ≤ x := by
  intro vs
  induction vs with
  | nil => intro i0 x hx; simp [navigableLoop] at hx
  | cons v0 vs ih =>
    intro i0 x hx
    rcases navigableLoop_cons_cases hx with h | h
    · omega
    · have := ih (i0 + 1) x h
      omega

theorem navigableLoop_excludes_far (wpos : List (ℝ × ℝ)) (wpresent : List WeatherPointInfo)
    (data : ℕ → Option (WField → FieldVal)) :
    ∀ (vs : List (ℝ × ℝ)) (i0 k : ℕ) (v : ℝ × ℝ) (d : ℝ) (ni : ℕ),
      vs.get? k = some v → kdNearest v wpos = some (d, ni) → MAX_WEATHER_DISTANCE < d →
      (i0 + k) ∉ navigableLoop wpos wpresent data vs i0 := by
  intro vs
  induction vs with
  | nil => intro i0 k v d ni hget; simp at hget
  | cons v0 vs ih =>
    intro i0 k v d ni hget hkd hd hmem
    cases k with
    | zero =>
      simp only [List.get?] at hget
      obtain rfl : v0 = v := by injection hget
      rw [navigableLoop_cons_far hkd hd] at hmem
      have := navigableLoop_mem_ge wpos wpresent data vs (i0 + 1) (i0 + 0) hmem
      omega
    | succ k2 =>
      simp only [List.get?] at hget
      rcases navigableLoop_cons_cases hmem with h | h
      · omega
      · exact ih (i0 + 1) k2 v d ni hget hkd hd (by
          have : i0 + 1 + k2 = i0 + (k2 + 1) := by omega
          rw [this]
          exact h)

/-- C6 (amended): in `_validate_weather`, every mesh vertex whose planar
distance to its nearest usable weather sample exceeds
`MAX_WEATHER_DISTANCE = 50 000 m` (50 km, not the claimed ≈10 km) is excluded
from the navigable vertex list. -/
theorem validate_weather_excludes_far (weather_points : List WeatherPointInfo)
    (data : ℕ → Option (WField → FieldVal)) (vertices : List (ℝ × ℝ))
    (k : ℕ) (v : ℝ × ℝ) (d : ℝ) (ni : ℕ)
    (hv : vertices.get? k = some v)
    (hkd : kdNearest v ((weather_points.filter
      (fun wp => (data wp.idx).isSome)).map (fun wp => (wp.x, wp.y))) = some (d, ni))
    (hd : MAX_WEATHER_DISTANCE < d) :
    k ∉ (iter_validate_weather weather_points data vertices).2 := by
  rw [iter_validate_weather]
  by_cases hw : (weather_points.filter (fun wp => (data wp.idx).isSome)).length = 0
  · simp [if_pos hw]
  · simp only [if_neg hw]
    have h := navigableLoop_excludes_far
      ((weather_points.filter (fun wp => (data wp.idx).isSome)).map (fun wp => (wp.x, wp.y)))
      (weather_points.filter (fun wp => (data wp.idx).isSome))
      data vertices 0 k v d ni hv hkd hd
    simpa using h

/-- A weather record accepted by the validator, as a `WField → FieldVal`
dictionary. -/
def goodWeatherDict : WField → FieldVal := fun f =>
  match f with
  | .wind_speed_10m => .num 10
  | .wave_height => .num 1
  | .wave_period => .num 5
  | _ => .num 0

/-- Weather lookup carrying `goodWeatherDict` at index 0 only. -/
def singleWeatherMap : ℕ → Option (WField → FieldVal) :=
  fun i => if i = 0 then some goodWeatherDict else none

/-- C6 counterexample: one valid weather sample and one mesh vertex 20 km away
from it — farther than the claimed `D_max ≈ 10 km` — is still marked navigable,
because the source threshold is 50 km. -/
theorem validate_weather_10km_counterexample :
    (iter_validate_weather [{ idx := 0, x := 1, y := 0 }] singleWeatherMap
      [((1 : ℝ), (20000 : ℝ))]).2 = [0] ∧
    kdNearest ((1 : ℝ), (20000 : ℝ)) [((1 : ℝ), (0 : ℝ))] = some (20000, 0) ∧
    (10000 : ℝ) < 20000 := by
  have hdist : calculate_distance ((1 : ℝ), (20000 : ℝ)) ((1 : ℝ), (0 : ℝ)) = 20000 := by
    have h := calculate_distance_vert (1 : ℝ) 20000 0
    norm_num at h
    exact h
  have hkd : kdNearest ((1 : ℝ), (20000 : ℝ)) [((1 : ℝ), (0 : ℝ))] = some (20000, 0) := by
    simp [kdNearest, hdist]
  have hfil : ([{ idx := 0, x := 1, y := 0 }] : List WeatherPointInfo).filter
      (fun wp => (singleWeatherMap wp.idx).isSome) = [{ idx := 0, x := 1, y := 0 }] := by
    simp [singleWeatherMap]
  refine ⟨?_, hkd, by norm_num⟩
  rw [iter_validate_weather]
  simp only [hfil, List.length_cons, List.length_nil]
  rw [if_neg (by norm_num)]
  simp only [navigableLoop, List.map_cons, List.map_nil, hkd]
  rw [if_neg (by norm_num [MAX_WEATHER_DISTANCE])]
  simp [singleWeatherMap, goodWeatherDict, validate_weather_data, requiredFields, checkField,
    isDirection]
  norm_num

/-- C6 witness: the amended exclusion applied to a vertex 60 km from the only
weather sample: it is not navigable. -/
theorem validate_weather_excludes_far_witness :
    (([((1 : ℝ), (60000 : ℝ))] : List (ℝ × ℝ)).get? 0 = some ((1 : ℝ), (60000 : ℝ))) ∧
    kdNearest ((1 : ℝ), (60000 : ℝ))
      ((([{ idx := 0, x := 1, y := 0 }] : List WeatherPointInfo).filter
        (fun wp => (singleWeatherMap wp.idx).isSome)).map (fun wp => (wp.x, wp.y))) =
      some (60000, 0) ∧
    MAX_WEATHER_DISTANCE < 60000 ∧
    (0 : ℕ) ∉ (iter_validate_weather [{ idx := 0, x := 1, y := 0 }] singleWeatherMap
      [((1 : ℝ), (60000 : ℝ))]).2 := by
  have hfil : (([{ idx := 0, x := 1, y := 0 }] : List WeatherPointInfo).filter
      (fun wp => (singleWeatherMap wp.idx).isSome)) = [{ idx := 0, x := 1, y := 0 }] := by
    simp [singleWeatherMap]
  have hdist : calculate_distance ((1 : ℝ), (60000 : ℝ)) ((1 : ℝ), (0 : ℝ)) = 60000 := by
    have h := calculate_distance_vert (1 : ℝ) 60000 0
    norm_num at h
    exact h
  have hkd : kdNearest ((1 : ℝ), (60000 : ℝ))
      ((([{ idx := 0, x := 1, y := 0 }] : List WeatherPointInfo).filter
        (fun wp => (singleWeatherMap wp.idx).isSome)).map (fun wp => (wp.x, wp.y))) =
      some (60000, 0) := by
    rw [hfil]
    simp [kdNearest, hdist]
  refine ⟨rfl, hkd, by norm_num [MAX_WEATHER_DISTANCE], ?_⟩
  exact validate_weather_excludes_far _ _ _ 0 _ 60000 0 rfl hkd
    (by norm_num [MAX_WEATHER_DISTANCE])

/-! ## C2 — the iterative ETA loop is bounded by `max_iterations`
(`IterativeRouteCalculator.calculate_route`, `app/services/routing/iterative_routing.py`) -/

/-- `ETACalculationConfig` (`app/schemas/time_aware_weather.py`), with its
source defaults. -/
structure ETACalculationConfig where
  max_iterations : ℕ := 3
  convergence_threshold_seconds : ℝ := 300
  time_round_minutes : ℕ := 15
  coord_grid_size : ℝ := 0.01
  use_initial_speed_estimate : Bool := true
  initial_speed_knots : ℝ := 6
  forecast_buffer_minutes : ℕ := 30
  batch_weather_requests : Bool := true
  batch_time_window_minutes : ℕ := 15

/-- `ETACalculationConfig()` with all defaults. -/
noncomputable def defaultETAConfig : ETACalculationConfig := {}

/-- The environment-determined outcome of one body of the
`calculate_route` loop: whether at least 30 % of the vertices were navigable,
whether `_calculate_route_with_weather` produced a route, and the
`max_eta_change_seconds` recorded after the profile update.  The weather fetch,
validation, routing and profile update are external I/O and are abstracted into
this per-iteration record. -/
structure IterationOutcome where
  enough_navigable : Bool
  route_found : Bool
  max_eta_change : ℝ

/-- The control flow of `for iteration in range(self.config.max_iterations)` in
`IterativeRouteCalculator.calculate_route`, counting how many loop bodies are
entered: a failed navigability check or routing failure breaks (or aborts) the
loop, and from the second iteration on, `max_eta_change <
convergence_threshold_seconds` breaks as converged. -/
noncomputable def calc_route_loop (threshold : ℝ) (outcome : ℕ → IterationOutcome) :
    ℕ → ℕ → ℕ
  | 0, _ => 0
  | fuel + 1, i =>
    if (outcome i).enough_navigable = false then 1
    else if (outcome i).route_found = false then 1
    else if 0 < i ∧ (outcome i).max_eta_change < threshold then 1
    else 1 + calc_route_loop threshold outcome fuel (i + 1)

/-- The number of iterations `calculate_route` executes. -/
noncomputable def calc_route_iterations (cfg : ETACalculationConfig)
    (outcome : ℕ → IterationOutcome) : ℕ :=
  calc_route_loop cfg.convergence_threshold_seconds outcome cfg.max_iterations 0

theorem calc_route_loop_le (threshold : ℝ) (outcome : ℕ → IterationOutcome) :
    ∀ (fuel i : ℕ), calc_route_loop threshold outcome fuel i ≤ fuel := by
  intro fuel
  induction fuel with
  | zero => intro i; simp [calc_route_loop]
  | succ fuel ih =>
    intro i
    simp only [calc_route_loop]
    split_ifs
    · omega
    · omega
    · omega
    · have := ih (i + 1)
      omega

/-- C2: the weather-fetch/route/update cycle of
`IterativeRouteCalculator.calculate_route` executes at most
`config.max_iterations` loop bodies, whatever the weather service, validator
and router do; and the default `max_iterations` is 3. -/
theorem calc_route_iterations_le (cfg : ETACalculationConfig)
    (outcome : ℕ → IterationOutcome) :
    calc_route_iterations cfg outcome ≤ cfg.max_iterations ∧
    defaultETAConfig.max_iterations = 3 :=
  ⟨calc_route_loop_le _ _ _ _, rfl⟩

/-! ## C10 — `SailingRouter._astar` returns valid connected paths
(`app/services/routing/heuristics.py`) -/

/-- The interface `_astar` uses from its `heuristics` argument (any
`heuristics_cls` instance): edge costs (`none` = `inf`), the A* heuristic, and
`_calculate_bearing`. -/
structure HeuristicsLike where
  edge_cost : (ℝ × ℝ) → (ℝ × ℝ) → ℕ → ℕ → Option ℝ → Option ℝ
  heuristic_cost : (ℝ × ℝ) → (ℝ × ℝ) → ℕ → ℝ
  bearing_fn : (ℝ × ℝ) → (ℝ × ℝ) → ℝ

/-- `SailingHeuristics` seen through the `_astar` interface. -/
noncomputable def SailingHeuristics.toLike (H : SailingHeuristics) : HeuristicsLike :=
  { edge_cost := H.calculate_edge_cost
    heuristic_cost := H.calculate_heuristic_cost
    bearing_fn := calculate_bearing }

/-- The mutable state of the `_astar` main loop: the `heapq` open set (pairs
`(f_score, vertex)`), the `came_from`, `g_score` and `f_score` dicts, and the
closed set (as a list in closing order). -/
structure AStarState where
  openSet : List (ℝ × ℕ)
  cameFrom : ℕ → Option ℕ
  gScore : ℕ → Option ℝ
  fScore : ℕ → Option ℝ
  closed : List ℕ

/-- Dict update. -/
def updFn {α : Type} (f : ℕ → Option α) (k : ℕ) (v : α) : ℕ → Option α :=
  fun n => if n = k then some v else f n

/-- `heapq.heappop`: remove and return the lexicographically smallest
`(f_score, vertex)` pair (the earliest such entry on exact duplicates). -/
noncomputable def popMin : List (ℝ × ℕ) → Option ((ℝ × ℕ) × List (ℝ × ℕ))
  | [] => none
  | a :: rest =>
    match popMin rest with
    | none => some (a, [])
    | some (b, rest2) =>
      if a.1 < b.1 ∨ (a.1 = b.1 ∧ a.2 ≤ b.2) then some (a, rest)
      else some (b, a :: rest2)

/-- The neighbor-relaxation loop of `_astar` (`for neighbor in
self.graph.get(current, [])`): closed neighbors are skipped, infinite edges are
skipped, and a strictly better tentative `g` rewires `came_from`, updates the
score dicts and pushes `(f, neighbor)`.  `previous_heading` is the bearing of
the edge recorded in `came_from[current]`.  The `g_score[current]` lookup
cannot miss on a popped vertex; the impossible miss is modelled as a skip. -/
noncomputable def astar_relax_one (h : HeuristicsLike) (V : ℕ → ℝ × ℝ)
    (goal current n : ℕ) (st : AStarState) : AStarState :=
  if n ∈ st.closed then st
  else
    let prev : Option ℝ :=
      match st.cameFrom current with
      | some p => some (h.bearing_fn (V p) (V current))
      | none => none
    match h.edge_cost (V current) (V n) current n prev with
    | none => st
    | some ec =>
      match st.gScore current with
      | none => st
      | some gc =>
        let tentative := gc + ec
        let hs := h.heuristic_cost (V n) (V goal) n
        let push : AStarState :=
          { openSet := (tentative + hs, n) :: st.openSet
            cameFrom := updFn st.cameFrom n current
            gScore := updFn st.gScore n tentative
            fScore := updFn st.fScore n (tentative + hs)
            closed := st.closed }
        match st.gScore n with
        | none => push
        | some gn => if tentative < gn then push else st

/-- The full neighbor loop. -/
noncomputable def astar_relax (h : HeuristicsLike) (V : ℕ → ℝ × ℝ) (goal current : ℕ) :
    List ℕ → AStarState → AStarState
  | [], st => st
  | n :: ns, st => astar_relax h V goal current ns (astar_relax_one h V goal current n st)

/-- The `while current in came_from` reconstruction walk (collecting the
vertices that have a `came_from` entry, from the goal downwards). -/
noncomputable def reconstruct_path (cf : ℕ → Option ℕ) : ℕ → ℕ → List ℕ
  | 0, _ => []
  | fuel + 1, current =>
    match cf current with
    | none => []
    | some p => current :: reconstruct_path cf fuel p

/-- The main `while open_set` loop of `_astar`: pop the smallest `(f, vertex)`;
on the goal, reconstruct (append `start_idx`, reverse); skip already-closed
vertices; otherwise close the vertex and relax its neighbors.  The loop is
fuel-indexed (the source loop terminates on every run; exhausted fuel returns
the no-path result `[]`).  The reconstruction walk needs at most
`closed.length + 1` steps, which the invariant proofs below justify. -/
noncomputable def astar_loop (h : HeuristicsLike) (V : ℕ → ℝ × ℝ) (graph : ℕ → List ℕ)
    (start goal : ℕ) : ℕ → AStarState → List ℕ
  | 0, _ => []
  | fuel + 1, st =>
    match popMin st.openSet with
    | none => []
    | some (fc, rest) =>
      let current := fc.2
      if current = goal then
        ((reconstruct_path st.cameFrom (st.closed.length + 1) current) ++ [start]).reverse
      else if current ∈ st.closed then
        astar_loop h V graph start goal fuel { st with openSet := rest }
      else
        let stc : AStarState :=
          { openSet := rest, cameFrom := st.cameFrom, gScore := st.gScore
            fScore := st.fScore, closed := st.closed ++ [current] }
        astar_loop h V graph start goal fuel (astar_relax h V goal current (graph current) stc)

/-- `SailingRouter._astar`: run the loop from the initial state
`open_set = [(0, start)]`, `g_score = {start: 0}`,
`f_score = {start: h(start, goal)}`. -/
noncomputable def astar (h : HeuristicsLike) (V : ℕ → ℝ × ℝ) (graph : ℕ → List ℕ)
    (start goal : ℕ) (fuel : ℕ) : List ℕ :=
  astar_loop h V graph start goal fuel
    { openSet := [(0, start)]
      cameFrom := fun _ => none
      gScore := updFn (fun _ => none) start 0
      fScore := updFn (fun _ => none) start (h.heuristic_cost (V start) (V goal) start)
      closed := [] }

/-- The `_astar` loop invariant.  `came_from` edges are graph edges whose
parent is closed; along `came_from`, closing ranks strictly decrease; every
closed or queued vertex other than the start has a `came_from` entry.  Together
these make every reconstruction a finite walk ending at the start vertex. -/
structure AStarInv (graph : ℕ → List ℕ) (start : ℕ) (st : AStarState) : Prop where
  cf_adj : ∀ x y, st.cameFrom x = some y → x ∈ graph y
  cf_closed : ∀ x y, st.cameFrom x = some y → y ∈ st.closed
  cf_rank : ∀ x y, st.cameFrom x = some y → x ∈ st.closed →
    st.closed.indexOf y < st.closed.indexOf x
  closed_cf : ∀ v ∈ st.closed, v ≠ start → st.cameFrom v ≠ none
  open_cf : ∀ e ∈ st.openSet, e.2 ≠ start → st.cameFrom e.2 ≠ none

theorem popMin_mem : ∀ {l : List (ℝ × ℕ)} {x : ℝ × ℕ} {rest : List (ℝ × ℕ)},
    popMin l = some (x, rest) → x ∈ l := by
  intro l
  induction l with
  | nil => intro x rest h; simp [popMin] at h
  | cons a t ih =>
    intro x rest h
    simp only [popMin] at h
    split at h
    · simp only [Option.some.injEq, Prod.mk.injEq] at h
      rw [← h.1]
      exact List.mem_cons_self a t
    · rename_i b rest2 heq
      split at h <;> simp only [Option.some.injEq, Prod.mk.injEq] at h
      · rw [← h.1]
        exact List.mem_cons_self a t
      · rw [← h.1]
        exact List.mem_cons_of_mem a (ih heq)

theorem popMin_rest_subset : ∀ {l : List (ℝ × ℕ)} {x : ℝ × ℕ} {rest : List (ℝ × ℕ)},
    popMin l = some (x, rest) → ∀ y ∈ rest, y ∈ l := by
  intro l
  induction l with
  | nil => intro x rest h; simp [popMin] at h
  | cons a t ih =>
    intro x rest h y hy
    simp only [popMin] at h
    split at h
    · simp only [Option.some.injEq, Prod.mk.injEq] at h
      rw [← h.2] at hy
      simp at hy
    · rename_i b rest2 heq
      split at h <;> simp only [Option.some.injEq, Prod.mk.injEq] at h
      · rw [← h.2] at hy
        exact List.mem_cons_of_mem a hy
      · rw [← h.2] at hy
        rcases List.mem_cons.mp hy with rfl | hy2
        · exact List.mem_cons_self y t
        · exact List.mem_cons_of_mem a (ih heq y hy2)

theorem push_inv {graph : ℕ → List ℕ} {start : ℕ} {st : AStarState} {current n : ℕ}
    {tent fv : ℝ} (hinv : AStarInv graph start st)
    (hcur : current ∈ st.closed) (hn : n ∉ st.closed) (hadj : n ∈ graph current) :
    AStarInv graph start
      { openSet := (fv, n) :: st.openSet
        cameFrom := updFn st.cameFrom n current
        gScore := updFn st.gScore n tent
        fScore := updFn st.fScore n fv
        closed := st.closed } := by
  constructor
  · intro x y hxy
    simp only [updFn] at hxy
    split at hxy
    · obtain rfl : current = y := by injection hxy
      subst x
      exact hadj
    · exact hinv.cf_adj x y hxy
  · intro x y hxy
    simp only [updFn] at hxy
    split at hxy
    · obtain rfl : current = y := by injection hxy
      exact hcur
    · exact hinv.cf_closed x y hxy
  · intro x y hxy hx
    simp only [updFn] at hxy
    split at hxy
    · rename_i hxn
      exact absurd (hxn ▸ hx) hn
    · exact hinv.cf_rank x y hxy hx
  · intro v hv hvs
    simp only [updFn]
    split
    · simp
    · exact hinv.closed_cf v hv hvs
  · intro e he hes
    simp only [updFn]
    rcases List.mem_cons.mp he with rfl | he2
    · simp
    · split
      · simp
      · exact hinv.open_cf e he2 hes

theorem close_inv {graph : ℕ → List ℕ} {start : ℕ} {st : AStarState}
    {fc : ℝ × ℕ} {rest : List (ℝ × ℕ)} (hinv : AStarInv graph start st)
    (hpop : popMin st.openSet = some (fc, rest))
    (hnc : fc.2 ∉ st.closed) :
    AStarInv graph start
      { openSet := rest, cameFrom := st.cameFrom, gScore := st.gScore,
        fScore := st.fScore, closed := st.closed ++ [fc.2] } := by
  constructor
  · exact fun x y hxy => hinv.cf_adj x y hxy
  · intro x y hxy
    exact List.mem_append_left _ (hinv.cf_closed x y hxy)
  · intro x y hxy hx
    have hy : y ∈ st.closed := hinv.cf_closed x y hxy
    rcases List.mem_append.mp hx with hx1 | hx1
    · rw [List.indexOf_append_of_mem hy, List.indexOf_append_of_mem hx1]
      exact hinv.cf_rank x y hxy hx1
    · obtain rfl : x = fc.2 := by simpa using hx1
      rw [List.indexOf_append_of_mem hy, List.indexOf_append_of_not_mem hnc,
        List.indexOf_cons_eq _ rfl]
      have := List.indexOf_lt_length.mpr hy
      omega
  · intro v hv hvs
    rcases List.mem_append.mp hv with hv1 | hv1
    · exact hinv.closed_cf v hv1 hvs
    · have hv2 : v = fc.2 := by simpa using hv1
      subst hv2
      exact hinv.open_cf fc (popMin_mem hpop) hvs
  · intro e he hes
    exact hinv.open_cf e (popMin_rest_subset hpop e he) hes

theorem astar_relax_one_inv (h : HeuristicsLike) (V : ℕ → ℝ × ℝ) (goal : ℕ)
    {graph : ℕ → List ℕ} {start : ℕ} (st : AStarState) (current n : ℕ)
    (hinv : AStarInv graph start st) (hcur : current ∈ st.closed)
    (hadj : n ∈ graph current) :
    AStarInv graph start (astar_relax_one h V goal current n st) ∧
    (astar_relax_one h V goal current n st).closed = st.closed := by
  simp only [astar_relax_one]
  by_cases hn : n ∈ st.closed
  · rw [if_pos hn]
    exact ⟨hinv, by trivial⟩
  · rw [if_neg hn]
    rcases hec : h.edge_cost (V current) (V n) current n
        (match st.cameFrom current with
         | some p => some (h.bearing_fn (V p) (V current))
         | none => none) with _ | ec
    · simp only [hec]
      exact ⟨hinv, by trivial⟩
    · simp only [hec]
      rcases hgc : st.gScore current with _ | gc
      · simp only [hgc]
        exact ⟨hinv, by trivial⟩
      · simp only [hgc]
        rcases hgn : st.gScore n with _ | gn
        · simp only [hgn]
          exact ⟨push_inv hinv hcur hn hadj, by trivial⟩
        · simp only [hgn]
          split
          · exact ⟨push_inv hinv hcur hn hadj, by trivial⟩
          · exact ⟨hinv, by trivial⟩

theorem astar_relax_inv (h : HeuristicsLike) (V : ℕ → ℝ × ℝ) (goal : ℕ)
    {graph : ℕ → List ℕ} {start : ℕ} :
    ∀ (ns : List ℕ) (st : AStarState) (current : ℕ),
      AStarInv graph start st → current ∈ st.closed → (∀ x ∈ ns, x ∈ graph current) →
      AStarInv graph start (astar_relax h V goal current ns st) ∧
      (astar_relax h V goal current ns st).closed = st.closed := by
  intro ns
  induction ns with
  | nil =>
    intro st current hinv _ _
    exact ⟨hinv, rfl⟩
  | cons n ns ih =>
    intro st current hinv hcur hns
    simp only [astar_relax]
    obtain ⟨h1, h2⟩ := astar_relax_one_inv h V goal st current n hinv hcur
      (hns n (List.mem_cons_self n ns))
    obtain ⟨h3, h4⟩ := ih (astar_relax_one h V goal current n st) current h1
      (h2 ▸ hcur) (fun x hx => hns x (List.mem_cons_of_mem n hx))
    exact ⟨h3, h4.trans h2⟩

/-- Correctness of the reconstruction walk under the `came_from` invariants:
starting from any vertex with a sufficient fuel bound, prefixing the start
vertex to the reversed collected walk yields a chain of graph edges; an empty
walk means the vertex has no `came_from` entry, and a non-empty walk starts at
the vertex itself. -/
theorem reconstruct_spec {graph : ℕ → List ℕ} {start : ℕ} {closed : List ℕ}
    {cf : ℕ → Option ℕ}
    (hadj : ∀ x y, cf x = some y → x ∈ graph y)
    (hclosed : ∀ x y, cf x = some y → y ∈ closed)
    (hrank : ∀ x y, cf x = some y → x ∈ closed → closed.indexOf y < closed.indexOf x)
    (hcf0 : ∀ v ∈ closed, v ≠ start → cf v ≠ none) :
    ∀ (fuel current : ℕ),
      (current ∈ closed → closed.indexOf current < fuel) →
      (current ∉ closed → closed.length < fuel) →
      List.Chain' (fun a b => b ∈ graph a)
        (start :: (reconstruct_path cf fuel current).reverse) ∧
      (reconstruct_path cf fuel current = [] → cf current = none) ∧
      (reconstruct_path cf fuel current ≠ [] →
        (reconstruct_path cf fuel current).head? = some current) := by
  intro fuel
  induction fuel with
  | zero =>
    intro current h1 h2
    exfalso
    by_cases hc : current ∈ closed
    · exact absurd (h1 hc) (by omega)
    · exact absurd (h2 hc) (by omega)
  | succ fuel ih =>
    intro current h1 h2
    rcases hcf : cf current with _ | p
    · simp only [reconstruct_path, hcf]
      exact ⟨by simp, fun _ => by trivial, fun habs => absurd rfl habs⟩
    · have hpc : p ∈ closed := hclosed current p hcf
      have hb1 : p ∈ closed → closed.indexOf p < fuel := by
        intro _
        by_cases hc : current ∈ closed
        · have ha := hrank current p hcf hc
          have hb := h1 hc
          omega
        · have hb := h2 hc
          have hc2 := List.indexOf_lt_length.mpr hpc
          omega
      have hb2 : p ∉ closed → closed.length < fuel := fun hp => absurd hpc hp
      obtain ⟨ihA, ihB, ihC⟩ := ih p hb1 hb2
      simp only [reconstruct_path, hcf]
      refine ⟨?_, by simp, by simp⟩
      rw [List.reverse_cons,
        show start :: ((reconstruct_path cf fuel p).reverse ++ [current]) =
          (start :: (reconstruct_path cf fuel p).reverse) ++ [current] from rfl,
        List.chain'_append]
      refine ⟨ihA, by simp, ?_⟩
      intro x hx y hy
      simp only [List.head?_cons, Option.mem_def, Option.some.injEq] at hy
      subst hy
      rcases hrec : reconstruct_path cf fuel p with _ | ⟨q, l⟩
      · have hps : p = start := by
          by_contra hne
          exact (hcf0 p hpc hne) (ihB hrec)
        rw [hrec] at hx
        simp only [List.reverse_nil, List.getLast?_singleton, Option.mem_def,
          Option.some.injEq] at hx
        subst hx
        have := hadj current p hcf
        rwa [hps] at this
      · have hq : q = p := by
          have hh := ihC (by rw [hrec]; simp)
          rw [hrec] at hh
          simp only [List.head?_cons, Option.some.injEq] at hh
          exact hh
        rw [hrec] at hx
        rw [List.reverse_cons,
          show start :: (l.reverse ++ [q]) = (start :: l.reverse) ++ [q] from rfl,
          List.getLast?_append_cons] at hx
        simp only [List.getLast?_singleton, Option.mem_def, Option.some.injEq] at hx
        subst hx
        rw [hq]
        exact hadj current p hcf

theorem astar_loop_succ_none {h : HeuristicsLike} {V : ℕ → ℝ × ℝ} {graph : ℕ → List ℕ}
    {start goal fuel : ℕ} {st : AStarState} (hpop : popMin st.openSet = none) :
    astar_loop h V graph start goal (fuel + 1) st = [] := by
  simp only [astar_loop]
  rw [hpop]

theorem astar_loop_succ_some {h : HeuristicsLike} {V : ℕ → ℝ × ℝ} {graph : ℕ → List ℕ}
    {start goal fuel : ℕ} {st : AStarState} {fc : ℝ × ℕ} {rest : List (ℝ × ℕ)}
    (hpop : popMin st.openSet = some (fc, rest)) :
    astar_loop h V graph start goal (fuel + 1) st =
      if fc.2 = goal then
        ((reconstruct_path st.cameFrom (st.closed.length + 1) fc.2) ++ [start]).reverse
      else if fc.2 ∈ st.closed then
        astar_loop h V graph start goal fuel { st with openSet := rest }
      else
        astar_loop h V graph start goal fuel (astar_relax h V goal fc.2 (graph fc.2)
          { openSet := rest, cameFrom := st.cameFrom, gScore := st.gScore,
            fScore := st.fScore, closed := st.closed ++ [fc.2] }) := by
  simp only [astar_loop]
  rw [hpop]

theorem astar_loop_spec (h : HeuristicsLike) (V : ℕ → ℝ × ℝ) (graph : ℕ → List ℕ)
    (start goal : ℕ) :
    ∀ (fuel : ℕ) (st : AStarState), AStarInv graph start st →
      astar_loop h V graph start goal fuel st ≠ [] →
      (astar_loop h V graph start goal fuel st).head? = some start ∧
      (astar_loop h V graph start goal fuel st).getLast? = some goal ∧
      List.Chain' (fun a b => b ∈ graph a) (astar_loop h V graph start goal fuel st) := by
  intro fuel
  induction fuel with
  | zero =>
    intro st _ hne
    simp [astar_loop] at hne
  | succ fuel ih =>
    intro st hinv hne
    rcases hpop : popMin st.openSet with _ | ⟨fc, rest⟩
    · rw [astar_loop_succ_none hpop] at hne
      exact absurd rfl hne
    · rw [astar_loop_succ_some hpop] at hne ⊢
      by_cases hgoal : fc.2 = goal
      · rw [if_pos hgoal] at hne ⊢
        obtain ⟨rA, rB, rC⟩ := reconstruct_spec
          hinv.cf_adj hinv.cf_closed hinv.cf_rank hinv.closed_cf
          (st.closed.length + 1) fc.2
          (fun hc => by have := List.indexOf_lt_length.mpr hc; omega)
          (fun _ => by omega)
        have hrev : (reconstruct_path st.cameFrom (st.closed.length + 1) fc.2 ++
            [start]).reverse =
            start :: (reconstruct_path st.cameFrom (st.closed.length + 1) fc.2).reverse := by
          simp
        refine ⟨by rw [hrev]; rfl, ?_, by rw [hrev]; exact rA⟩
        rcases hrec : reconstruct_path st.cameFrom (st.closed.length + 1) fc.2
          with _ | ⟨q, l⟩
        · have hcfn := rB hrec
          have hfs : fc.2 = start := by
            by_contra hne2
            exact hinv.open_cf fc (popMin_mem hpop) hne2 hcfn
          have he : (([] : List ℕ) ++ [start]).reverse = [start] := by simp
          rw [he]
          simp only [List.getLast?_singleton]
          rw [← hfs, hgoal]
        · have hq : q = fc.2 := by
            have hh := rC (by rw [hrec]; simp)
            rw [hrec] at hh
            simp only [List.head?_cons, Option.some.injEq] at hh
            exact hh
          have he : ((q :: l) ++ [start]).reverse = (start :: l.reverse) ++ [q] := by simp
          rw [he, List.getLast?_append_cons]
          simp only [List.getLast?_singleton]
          rw [hq, hgoal]
      · rw [if_neg hgoal] at hne ⊢
        by_cases hcl : fc.2 ∈ st.closed
        · rw [if_pos hcl] at hne ⊢
          refine ih _ ?_ hne
          exact ⟨hinv.cf_adj, hinv.cf_closed, hinv.cf_rank, hinv.closed_cf,
            fun e he => hinv.open_cf e (popMin_rest_subset hpop e he)⟩
        · rw [if_neg hcl] at hne ⊢
          refine ih _ ?_ hne
          have hstc := close_inv hinv hpop hcl
          obtain ⟨hrelax, -⟩ := astar_relax_inv h V goal (graph fc.2)
            { openSet := rest, cameFrom := st.cameFrom, gScore := st.gScore,
              fScore := st.fScore, closed := st.closed ++ [fc.2] } fc.2 hstc
            (by simp) (fun x hx => hx)
          exact hrelax

/-- C10: whatever the mesh, weather, yacht heuristics, start and goal, a
non-empty vertex list returned by `_astar` starts at the start vertex, ends at
the goal vertex, and every consecutive pair of vertices is adjacent in the
triangle-derived navigation graph. -/
theorem astar_path_valid (h : HeuristicsLike) (V : ℕ → ℝ × ℝ) (n : ℕ)
    (triangles : List (ℕ × ℕ × ℕ)) (start goal fuel : ℕ)
    (hne : astar h V (buildNavigationGraph n triangles) start goal fuel ≠ []) :
    (astar h V (buildNavigationGraph n triangles) start goal fuel).head? = some start ∧
    (astar h V (buildNavigationGraph n triangles) start goal fuel).getLast? = some goal ∧
    List.Chain' (fun a b => b ∈ buildNavigationGraph n triangles a)
      (astar h V (buildNavigationGraph n triangles) start goal fuel) := by
  refine astar_loop_spec h V (buildNavigationGraph n triangles) start goal fuel _ ?_ hne
  constructor
  · intro x y hxy
    simp at hxy
  · intro x y hxy
    simp at hxy
  · intro x y hxy
    simp at hxy
  · intro v hv
    simp at hv
  · intro e he hes
    have : e = ((0 : ℝ), start) := by simpa using he
    rw [this] at hes
    exact absurd rfl hes

/-- C10 witness: with `plainHeuristics` on the one-triangle mesh and
`start = goal = 0`, `_astar` returns the non-empty path `[0]`, which starts at
the start, ends at the goal, and is trivially a chain. -/
theorem astar_path_valid_witness :
    astar plainHeuristics.toLike meshVertices (buildNavigationGraph 3 [(0, 1, 2)]) 0 0 5 ≠ [] ∧
    ((astar plainHeuristics.toLike meshVertices
        (buildNavigationGraph 3 [(0, 1, 2)]) 0 0 5).head? = some 0 ∧
     (astar plainHeuristics.toLike meshVertices
        (buildNavigationGraph 3 [(0, 1, 2)]) 0 0 5).getLast? = some 0 ∧
     List.Chain' (fun a b => b ∈ buildNavigationGraph 3 [(0, 1, 2)] a)
       (astar plainHeuristics.toLike meshVertices
         (buildNavigationGraph 3 [(0, 1, 2)]) 0 0 5)) := by
  have hres : astar plainHeuristics.toLike meshVertices
      (buildNavigationGraph 3 [(0, 1, 2)]) 0 0 5 = [0] := by
    simp [astar, astar_loop, popMin, reconstruct_path]
  have hne : astar plainHeuristics.toLike meshVertices
      (buildNavigationGraph 3 [(0, 1, 2)]) 0 0 5 ≠ [] := by
    rw [hres]
    simp
  exact ⟨hne, astar_path_valid plainHeuristics.toLike meshVertices 3 [(0, 1, 2)] 0 0 5 hne⟩

/-! ## C8 — segment merging conserves totals
(`SegmentOptimizer`, `app/services/routing/segement_optimalizer.py`) -/

/-- One endpoint record of a raw segment dict (`{"x", "y", "lon", "lat"}`). -/
structure SegEndpoint where
  x : ℝ
  y : ℝ
  lon : ℝ
  lat : ℝ

/-- A raw edge-segment dict as consumed by `SegmentOptimizer` (the fields read
by `_create_optimized_segment` and `_detect_maneuver_type`;
`point_of_sail` may be missing, modelled `Option`). -/
structure RawSegment where
  from_pt : SegEndpoint
  to_pt : SegEndpoint
  distance_nm : ℝ
  time_seconds : ℝ
  bearing : ℝ
  boat_speed_knots : ℝ
  wind_speed_knots : ℝ
  wind_direction : ℝ
  twa : ℝ
  wave_height_m : ℝ
  point_of_sail : Option String

/-- `app/schemas/segement.py` `OptimizedSegment`. -/
structure OptimizedSegment where
  from_point : ℝ × ℝ
  to_point : ℝ × ℝ
  from_point_wgs84 : ℝ × ℝ
  to_point_wgs84 : ℝ × ℝ
  avg_bearing : ℝ
  avg_boat_speed_knots : ℝ
  avg_wind_speed_knots : ℝ
  avg_wind_direction : ℝ
  avg_wave_height_m : ℝ
  avg_twa : ℝ
  total_distance_nm : ℝ
  total_time_hours : ℝ
  raw_segments_count : ℕ
  predominant_point_of_sail : String
  has_tack : Bool
  has_jibe : Bool

/-- `SegmentOptimizer._calculate_circular_mean`: length-weighted circular mean
of bearings (`atan2(Σ w sin θ, Σ w cos θ)`, normalized to `[0, 360)`); with
zero total weight it returns the first value, and with `weights=None` all
weights are 1. -/
noncomputable def calculate_circular_mean (values : List ℝ) (weights : Option (List ℝ)) : ℝ :=
  match values with
  | [] => 0
  | v0 :: _ =>
    let ws := weights.getD (values.map (fun _ => 1))
    let total := ws.sum
    if total = 0 then v0
    else
      let x := ((values.zip ws).map (fun p => p.2 / total * Real.sin (radians p.1))).sum
      let y := ((values.zip ws).map (fun p => p.2 / total * Real.cos (radians p.1))).sum
      pmod (degrees (atan2 x y) + 360) 360

/-- `SegmentOptimizer._detect_maneuver_type`: a TWA sign change is a "TACK"
when either side is below 90° in absolute value, a "JIBE" when both are above
120°. -/
noncomputable def detect_maneuver_type (prev_seg curr_seg : RawSegment) : Option String :=
  let prev_twa := prev_seg.twa
  let curr_twa := curr_seg.twa
  if (0 < prev_twa ∧ curr_twa < 0) ∨ (prev_twa < 0 ∧ 0 < curr_twa) then
    if |prev_twa| < 90 ∨ |curr_twa| < 90 then some "TACK"
    else if 120 < |prev_twa| ∧ 120 < |curr_twa| then some "JIBE"
    else none
  else none

/-- `point_of_sail_counts[pos] = point_of_sail_counts.get(pos, 0) + dist`,
preserving dict insertion order. -/
noncomputable def bumpCount : List (String × ℝ) → String → ℝ → List (String × ℝ)
  | [], key, d => [(key, d)]
  | (k, v) :: rest, key, d =>
    if k = key then (k, v + d) :: rest else (k, v) :: bumpCount rest key d

/-- `max(counts.keys(), key=lambda k: counts[k])`: the first key attaining the
maximal count, scanning in insertion order. -/
noncomputable def argmaxCount : List (String × ℝ) → String × ℝ → String
  | [], best => best.1
  | (k, v) :: rest, best =>
    if best.2 < v then argmaxCount rest (k, v) else argmaxCount rest best

/-- The running accumulators of the `for i, seg in enumerate(segments)` loop of
`_create_optimized_segment`. -/
structure CreateAcc where
  total_distance_nm : ℝ
  total_time_seconds : ℝ
  bearings : List ℝ
  wind_directions : List ℝ
  weights : List ℝ
  pos_counts : List (String × ℝ)
  sum_boat_speed : ℝ
  sum_wind_speed : ℝ
  sum_wave_height : ℝ
  sum_twa : ℝ
  has_tack : Bool
  has_jibe : Bool
  prev : Option RawSegment

/-- One body of the accumulation loop (`prev` carries `segments[i-1]` for the
maneuver detection, which runs only from the second element on). -/
noncomputable def createStep (acc : CreateAcc) (seg : RawSegment) : CreateAcc :=
  let dist := seg.distance_nm
  { total_distance_nm := acc.total_distance_nm + dist
    total_time_seconds := acc.total_time_seconds + seg.time_seconds
    bearings := acc.bearings ++ [seg.bearing]
    wind_directions := acc.wind_directions ++ [seg.wind_direction]
    weights := acc.weights ++ [dist]
    pos_counts := bumpCount acc.pos_counts (seg.point_of_sail.getD "unknown") dist
    sum_boat_speed := acc.sum_boat_speed + seg.boat_speed_knots * dist
    sum_wind_speed := acc.sum_wind_speed + seg.wind_speed_knots * dist
    sum_wave_height := acc.sum_wave_height + seg.wave_height_m * dist
    sum_twa := acc.sum_twa + seg.twa * dist
    has_tack :=
      match acc.prev with
      | some p =>
        match detect_maneuver_type p seg with
        | some s => if s = "TACK" then true else acc.has_tack
        | none => acc.has_tack
      | none => acc.has_tack
    has_jibe :=
      match acc.prev with
      | some p =>
        match detect_maneuver_type p seg with
        | some s => if s = "JIBE" then true else acc.has_jibe
        | none => acc.has_jibe
      | none => acc.has_jibe
    prev := some seg }

/-- The empty accumulator. -/
def initCreateAcc : CreateAcc :=
  { total_distance_nm := 0, total_time_seconds := 0, bearings := [], wind_directions := []
    weights := [], pos_counts := [], sum_boat_speed := 0, sum_wind_speed := 0
    sum_wave_height := 0, sum_twa := 0, has_tack := false, has_jibe := false, prev := none }

/-- `SegmentOptimizer._create_optimized_segment`: `none` models the
`ValueError` on an empty group.  Totals are accumulated over the group, the
bearings and wind directions get a distance-weighted circular mean, the other
kinematics a distance-weighted arithmetic mean (falling back to the first
edge's values on zero total distance). -/
noncomputable def create_optimized_segment (segments : List RawSegment) :
    Option OptimizedSegment :=
  match segments with
  | [] => none
  | first :: rest =>
    let lastSeg := rest.getLastD first
    let acc := (first :: rest).foldl createStep initCreateAcc
    let avg_bearing := calculate_circular_mean acc.bearings (some acc.weights)
    let avg_wind_direction := calculate_circular_mean acc.wind_directions (some acc.weights)
    some
      { from_point := (first.from_pt.x, first.from_pt.y)
        to_point := (lastSeg.to_pt.x, lastSeg.to_pt.y)
        from_point_wgs84 := (first.from_pt.lon, first.from_pt.lat)
        to_point_wgs84 := (lastSeg.to_pt.lon, lastSeg.to_pt.lat)
        avg_bearing := avg_bearing
        avg_boat_speed_knots :=
          if 0 < acc.total_distance_nm then acc.sum_boat_speed / acc.total_distance_nm
          else first.boat_speed_knots
        avg_wind_speed_knots :=
          if 0 < acc.total_distance_nm then acc.sum_wind_speed / acc.total_distance_nm
          else first.wind_speed_knots
        avg_wind_direction := avg_wind_direction
        avg_wave_height_m :=
          if 0 < acc.total_distance_nm then acc.sum_wave_height / acc.total_distance_nm
          else first.wave_height_m
        avg_twa :=
          if 0 < acc.total_distance_nm then acc.sum_twa / acc.total_distance_nm
          else first.twa
        total_distance_nm := acc.total_distance_nm
        total_time_hours := acc.total_time_seconds / 3600
        raw_segments_count := (first :: rest).length
        predominant_point_of_sail :=
          match acc.pos_counts with
          | [] => ""
          | e :: es => argmaxCount es e
        has_tack := acc.has_tack
        has_jibe := acc.has_jibe }

/-- `SegmentOptimizer._merge_two_segments`: fold two optimized segments,
adding distances and times and distance-weighting the averages. -/
noncomputable def merge_two_segments (s1 s2 : OptimizedSegment) : OptimizedSegment :=
  let dist1 := s1.total_distance_nm
  let dist2 := s2.total_distance_nm
  let total_dist := dist1 + dist2
  let total_time := s1.total_time_hours + s2.total_time_hours
  let w1 := if 0 < total_dist then dist1 / total_dist else 0.5
  let w2 := if 0 < total_dist then dist2 / total_dist else 0.5
  { from_point := s1.from_point
    to_point := s2.to_point
    from_point_wgs84 := s1.from_point_wgs84
    to_point_wgs84 := s2.to_point_wgs84
    avg_bearing := calculate_circular_mean [s1.avg_bearing, s2.avg_bearing]
      (some [dist1, dist2])
    avg_boat_speed_knots := s1.avg_boat_speed_knots * w1 + s2.avg_boat_speed_knots * w2
    avg_wind_speed_knots := s1.avg_wind_speed_knots * w1 + s2.avg_wind_speed_knots * w2
    avg_wind_direction := calculate_circular_mean [s1.avg_wind_direction, s2.avg_wind_direction]
      (some [dist1, dist2])
    avg_wave_height_m := s1.avg_wave_height_m * w1 + s2.avg_wave_height_m * w2
    avg_twa := s1.avg_twa * w1 + s2.avg_twa * w2
    total_distance_nm := total_dist
    total_time_hours := total_time
    raw_segments_count := s1.raw_segments_count + s2.raw_segments_count
    predominant_point_of_sail :=
      if dist2 ≤ dist1 then s1.predominant_point_of_sail else s2.predominant_point_of_sail
    has_tack := s1.has_tack || s2.has_tack
    has_jibe := s1.has_jibe || s2.has_jibe }

theorem createStep_fold_totals :
    ∀ (l : List RawSegment) (acc : CreateAcc),
      (l.foldl createStep acc).total_distance_nm =
        acc.total_distance_nm + (l.map (fun r => r.distance_nm)).sum ∧
      (l.foldl createStep acc).total_time_seconds =
        acc.total_time_seconds + (l.map (fun r => r.time_seconds)).sum := by
  intro l
  induction l with
  | nil => intro acc; simp
  | cons r l ih =>
    intro acc
    obtain ⟨h1, h2⟩ := ih (createStep acc r)
    simp only [List.foldl_cons, List.map_cons, List.sum_cons]
    rw [h1, h2]
    simp only [createStep]
    constructor <;> ring

/-- C8: segment merging conserves totals.  A merged segment built by
`_create_optimized_segment` has total distance equal to the sum of its
constituent edges' distances and total time (in hours) equal to the sum of
their times in seconds divided by 3600; and `_merge_two_segments` adds the
two distances and the two times exactly. -/
theorem segment_totals_conserved :
    (∀ (l : List RawSegment) (s : OptimizedSegment), create_optimized_segment l = some s →
      s.total_distance_nm = (l.map (fun r => r.distance_nm)).sum ∧
      s.total_time_hours * 3600 = (l.map (fun r => r.time_seconds)).sum) ∧
    (∀ s1 s2 : OptimizedSegment,
      (merge_two_segments s1 s2).total_distance_nm =
        s1.total_distance_nm + s2.total_distance_nm ∧
      (merge_two_segments s1 s2).total_time_hours =
        s1.total_time_hours + s2.total_time_hours) := by
  constructor
  · intro l s hs
    match l, hs with
    | first :: rest, hs =>
      simp only [create_optimized_segment, Option.some.injEq] at hs
      obtain ⟨hd, ht⟩ := createStep_fold_totals (first :: rest) initCreateAcc
      constructor
      · rw [← hs]
        show (List.foldl createStep initCreateAcc (first :: rest)).total_distance_nm = _
        rw [hd]
        simp [initCreateAcc]
      · rw [← hs]
        show (List.foldl createStep initCreateAcc (first :: rest)).total_time_seconds /
          3600 * 3600 = _
        rw [ht]
        simp only [initCreateAcc, zero_add]
        rw [div_mul_cancel₀ _ (by norm_num : (3600 : ℝ) ≠ 0)]
  · intro s1 s2
    exact ⟨rfl, rfl⟩

/-- A concrete raw segment endpoint. -/
def cexEndpoint : SegEndpoint :=
  { x := 0, y := 0, lon := 18.5, lat := 54.4 }

/-- A concrete raw edge of 2.5 nm / 3600 s. -/
def cexRawSegA : RawSegment :=
  { from_pt := cexEndpoint, to_pt := cexEndpoint, distance_nm := 2.5, time_seconds := 3600
    bearing := 10, boat_speed_knots := 5, wind_speed_knots := 12, wind_direction := 200
    twa := 45, wave_height_m := 1, point_of_sail := none }

/-- A concrete raw edge of 1.5 nm / 1800 s. -/
def cexRawSegB : RawSegment :=
  { from_pt := cexEndpoint, to_pt := cexEndpoint, distance_nm := 1.5, time_seconds := 1800
    bearing := 12, boat_speed_knots := 6, wind_speed_knots := 12, wind_direction := 200
    twa := 50, wave_height_m := 1, point_of_sail := none }

/-- C8 witness: the conservation law evaluated on a concrete two-edge group. -/
theorem segment_totals_conserved_witness :
    ((create_optimized_segment [cexRawSegA, cexRawSegB]).map
      (fun s => s.total_distance_nm)).getD 0 = 2.5 + 1.5 ∧
    ((create_optimized_segment [cexRawSegA, cexRawSegB]).map
      (fun s => s.total_time_hours * 3600)).getD 0 = 3600 + 1800 := by
  obtain ⟨s, hs⟩ : ∃ s, create_optimized_segment [cexRawSegA, cexRawSegB] = some s :=
    ⟨_, rfl⟩
  obtain ⟨h1, h2⟩ := segment_totals_conserved.1 [cexRawSegA, cexRawSegB] s hs
  rw [hs]
  constructor
  · show s.total_distance_nm = _
    rw [h1]
    simp [cexRawSegA, cexRawSegB]
  · show s.total_time_hours * 3600 = _
    rw [h2]
    simp [cexRawSegA, cexRawSegB]

end Sailing